import Mathlib

/-!
Verification of the cartography AWS sync modules
(`cartography/intel/aws/ec2/vpc.py`, `cartography/intel/aws/eks.py`,
`cartography/intel/aws/organizations.py`) against their natural-language
specification.

The graph store (neo4j) is modelled as a list of nodes and a list of
relationships.  A Cypher `MERGE (n:Label {key: v})` is modelled by
`mergeNode`: if a node with the same label and key property exists it is
updated in place (the `ON CREATE SET` attribute list is skipped and the
`SET` list applied), otherwise a fresh node is appended (both lists
applied, in query order).  A Cypher parameter that is Python `None`
arrives as `null`, and `SET n.a = null` removes the property, which
`setAttr` mirrors.  `timestamp()` is the store clock, threaded as `now`;
the `aws_update_tag` epoch is threaded as `epoch`.
-/

namespace Cartography

/-- Attribute values that appear as Cypher parameters in these modules:
strings, integers (timestamps and update tags), booleans and null. -/
inductive Val where
  | str (s : String)
  | int (n : Int)
  | bool (b : Bool)
  | null
deriving DecidableEq, Repr

/-- Property map of a node or relationship. -/
abbrev Attrs := List (String × Val)

/-- Convert an optional string parameter (Python `dict.get`) to a Cypher value. -/
def optStr : Option String → Val
  | none => .null
  | some s => .str s

/-- Convert an optional boolean parameter to a Cypher value. -/
def optBool : Option Bool → Val
  | none => .null
  | some b => .bool b

/-- Set one property: `SET n.k = v`.  Setting `null` removes the property
(neo4j semantics); any other value replaces it. -/
def setAttr (a : Attrs) (k : String) (v : Val) : Attrs :=
  let a' := a.filter (fun kv => kv.1 ≠ k)
  match v with
  | .null => a'
  | v => a' ++ [(k, v)]

/-- Apply a `SET` clause: the properties in the list, in query order. -/
def setAttrs (a : Attrs) (kvs : List (String × Val)) : Attrs :=
  kvs.foldl (fun acc kv => setAttr acc kv.1 kv.2) a

/-- Read a property; a missing property is `null` in Cypher. -/
def getAttr (a : Attrs) (k : String) : Val :=
  match a.find? (fun kv => kv.1 = k) with
  | some kv => kv.2
  | none => .null

/-- Identity of a node: its label set together with the key property and
key value the `MERGE` matches on (these modules key `AWSVpc`, `EKSCluster`,
`AWSAccount` and the CIDR block labels on `id`, and `AWSPrincipal` on `arn`). -/
structure NodeId where
  label : String
  keyProp : String
  keyVal : String
deriving DecidableEq, Repr

/-- A graph node: identity plus mutable properties. -/
structure Node where
  nid : NodeId
  attrs : Attrs
deriving DecidableEq, Repr

/-- A relationship between two node identities. -/
structure Rel where
  relType : String
  src : NodeId
  dst : NodeId
  attrs : Attrs
deriving DecidableEq, Repr

/-- The graph store. -/
structure Graph where
  nodes : List Node
  rels : List Rel
deriving DecidableEq, Repr

/-- First node with the given identity (how a `MATCH` resolves it). -/
def findNode (ns : List Node) (i : NodeId) : Option Node :=
  ns.find? (fun n => n.nid = i)

/-- Number of nodes carrying the given identity. -/
def countNid (ns : List Node) (i : NodeId) : Nat :=
  ns.countP (fun n => n.nid = i)

/-- Cypher `MERGE (n:label {keyProp: keyVal}) ON CREATE SET onCreate SET always`:
update every matching node with the `SET` list, or append a fresh node built
from the `ON CREATE SET` list followed by the `SET` list. -/
def mergeNode (ns : List Node) (i : NodeId) (onCreate always : List (String × Val)) :
    List Node :=
  if ns.any (fun n => n.nid = i) then
    ns.map (fun n => if n.nid = i then { n with attrs := setAttrs n.attrs always } else n)
  else
    ns ++ [{ nid := i, attrs := setAttrs (setAttrs [] onCreate) always }]

/-- Cypher `MERGE (a)-[r:relType]->(b)` between two resolved nodes, with its
`ON CREATE SET` and `SET` lists. -/
def mergeRel (rs : List Rel) (t : String) (src dst : NodeId)
    (onCreate always : List (String × Val)) : List Rel :=
  if rs.any (fun r => r.relType = t ∧ r.src = src ∧ r.dst = dst) then
    rs.map (fun r =>
      if r.relType = t ∧ r.src = src ∧ r.dst = dst then
        { r with attrs := setAttrs r.attrs always }
      else r)
  else
    rs ++ [{ relType := t, src := src, dst := dst,
             attrs := setAttrs (setAttrs [] onCreate) always }]

/-! Record shapes of the raw AWS data consumed by the load functions.
Optional fields are read with `dict.get` in the source (absent key gives
`None`); non-optional ones are read with `d[k]` and are required. -/

/-- One `CidrBlockState` / `Ipv6CidrBlockState` sub-document. -/
structure CidrStateVal where
  State : Option String
  StatusMessage : Option String
deriving DecidableEq, Repr

/-- One entry of a `CidrBlockAssociationSet` or `Ipv6CidrBlockAssociationSet`,
as a record of the keys the ingest statement dereferences. -/
structure CidrBlockEntry where
  AssociationId : Option String
  CidrBlock : Option String
  Ipv6CidrBlock : Option String
  CidrBlockState : Option CidrStateVal
  Ipv6CidrBlockState : Option CidrStateVal
deriving DecidableEq, Repr

/-- Cypher map access `block_data.f` for the fields named in the statement:
a missing key yields `null`. -/
def blockGet (b : CidrBlockEntry) : String → Val
  | "AssociationId" => optStr b.AssociationId
  | "CidrBlock" => optStr b.CidrBlock
  | "Ipv6CidrBlock" => optStr b.Ipv6CidrBlock
  | _ => .null

/-- Cypher access `block_data.f` for the state-document fields. -/
def blockGetState (b : CidrBlockEntry) : String → Option CidrStateVal
  | "CidrBlockState" => b.CidrBlockState
  | "Ipv6CidrBlockState" => b.Ipv6CidrBlockState
  | _ => none

/-- One record of `describe_vpcs()["Vpcs"]`.  `VpcId` is required
(`vpc["VpcId"]  # fail if not present`); the association sets default to
the empty list (`vpc_data.get(..., [])`). -/
structure VpcRecord where
  VpcId : String
  InstanceTenancy : Option String
  State : Option String
  IsDefault : Option Bool
  CidrBlock : Option String
  DhcpOptionsId : Option String
  CidrBlockAssociationSet : List CidrBlockEntry
  Ipv6CidrBlockAssociationSet : List CidrBlockEntry
deriving DecidableEq, Repr

/-- Identity of the `AWSVpc` node keyed by a VpcId. -/
def vpcNid (vpcId : String) : NodeId := ⟨"AWSVpc", "id", vpcId⟩

/-- Identity of the `AWSAccount` node keyed by an account id. -/
def accountNid (accountId : String) : NodeId := ⟨"AWSAccount", "id", accountId⟩

/-! Embedding of `cartography/intel/aws/ec2/vpc.py`. -/

/-- The result of `Template.safe_substitute` on `INGEST_CIDR_TEMPLATE`:
the statement's fixed skeleton is embedded semantically by `run_cidr_ingest`,
and this structure carries the three substituted parameters
`$block_label`, `$block_cidr` and `$state_name`. -/
structure CidrIngestStatement where
  block_label : String
  block_cidr : String
  state_name : String
deriving DecidableEq, Repr

/-- Embeds `_get_cidr_association_statement`: branch on `block_type`,
prefixing the ipv6 field names and extending the base label, and raise
`ValueError` on any other tag (`Except.error` models the raise). -/
def get_cidr_association_statement (block_type : String) :
    Except String CidrIngestStatement :=
  let BLOCK_CIDR := "CidrBlock"
  let STATE_NAME := "CidrBlockState"
  let BLOCK_TYPE := "AWSCidrBlock"
  if block_type = "ipv6" then
    .ok ⟨BLOCK_TYPE ++ ":AWSIpv6CidrBlock", "Ipv6" ++ BLOCK_CIDR, "Ipv6" ++ STATE_NAME⟩
  else if block_type = "ipv4" then
    .ok ⟨BLOCK_TYPE ++ ":AWSIpv4CidrBlock", BLOCK_CIDR, STATE_NAME⟩
  else
    .error ("Unsupported block type specified - " ++ block_type)

/-- One iteration of the statement's `UNWIND {CidrBlock} as block_data`:
merge the block node keyed `{VpcId} + "|" + block_data.$block_cidr` and the
`BLOCK_ASSOCIATION` relationship from the matched vpc.  Merging on a null
key property is a store error (`Except.error`), which aborts and rolls back
the single autocommitted statement. -/
def ingestOneBlock (stmt : CidrIngestStatement) (vpcId : String) (epoch now : Nat)
    (g : Graph) (blk : CidrBlockEntry) : Except String Graph :=
  match blockGet blk stmt.block_cidr with
  | .str cidr =>
    let bnid : NodeId := ⟨stmt.block_label, "id", vpcId ++ "|" ++ cidr⟩
    let st := blockGetState blk stmt.state_name
    let nodes1 := mergeNode g.nodes bnid
      [("firstseen", .int now)]
      [("association_id", blockGet blk "AssociationId"),
       ("cidr_block", .str cidr),
       ("block_state", optStr (st.bind (fun s => s.State))),
       ("block_state_message", optStr (st.bind (fun s => s.StatusMessage))),
       ("lastupdated", .int epoch)]
    let rels1 := mergeRel g.rels "BLOCK_ASSOCIATION" (vpcNid vpcId) bnid
      [("firstseen", .int now)] [("lastupdated", .int epoch)]
    .ok { nodes := nodes1, rels := rels1 }
  | _ => .error "Cannot merge node using null property value"

/-- The full CIDR ingest statement: `MATCH (vpc:AWSVpc{id: {VpcId}})` (no
match means no rows, so nothing is written), then the UNWIND over the
supplied block list. -/
def run_cidr_ingest (g : Graph) (stmt : CidrIngestStatement) (vpcId : String)
    (blocks : List CidrBlockEntry) (epoch now : Nat) : Except String Graph :=
  if g.nodes.any (fun n => n.nid = vpcNid vpcId) then
    blocks.foldlM (fun gi blk => ingestOneBlock stmt vpcId epoch now gi blk) g
  else
    .ok g

/-- Embeds `load_cidr_association_set`: build the statement (raising
`ValueError` for an unsupported `block_type` before anything reaches the
session), pick the matching association set, run the statement. -/
def load_cidr_association_set (g : Graph) (vpc_id : String) (vpc_data : VpcRecord)
    (block_type : String) (aws_update_tag now : Nat) : Except String Graph :=
  match get_cidr_association_statement block_type with
  | .error e => .error e
  | .ok stmt =>
    let data := if block_type = "ipv6" then vpc_data.Ipv6CidrBlockAssociationSet
                else vpc_data.CidrBlockAssociationSet
    run_cidr_ingest g stmt vpc_id data aws_update_tag now

/-- The `ON CREATE SET` list of the `ingest_vpc` query. -/
def vpcOnCreate (now : Nat) (vpcId : String) : List (String × Val) :=
  [("firstseen", .int now), ("vpcid", .str vpcId)]

/-- The `SET` list of the `ingest_vpc` query, in query order. -/
def vpcAlways (vpc : VpcRecord) (region : String) (epoch : Nat) : List (String × Val) :=
  [("instance_tenancy", optStr vpc.InstanceTenancy),
   ("state", optStr vpc.State),
   ("is_default", optBool vpc.IsDefault),
   ("primary_cidr_block", optStr vpc.CidrBlock),
   ("dhcp_options_id", optStr vpc.DhcpOptionsId),
   ("region", .str region),
   ("lastupdated", .int epoch)]

/-- One run of the `ingest_vpc` query: merge the `AWSVpc` node, then
`MATCH (awsAccount:AWSAccount{id: ...})` and, only when it resolves, merge
the ownership `RESOURCE` relationship. -/
def runIngestVpc (g : Graph) (vpc : VpcRecord) (region current_aws_account_id : String)
    (aws_update_tag now : Nat) : Graph :=
  let nodes1 := mergeNode g.nodes (vpcNid vpc.VpcId)
    (vpcOnCreate now vpc.VpcId) (vpcAlways vpc region aws_update_tag)
  let rels1 :=
    if nodes1.any (fun n => n.nid = accountNid current_aws_account_id) then
      mergeRel g.rels "RESOURCE" (accountNid current_aws_account_id) (vpcNid vpc.VpcId)
        [("firstseen", .int now)] [("lastupdated", .int aws_update_tag)]
    else g.rels
  { nodes := nodes1, rels := rels1 }

/-- Embeds `load_ec2_vpcs`: for each record run `ingest_vpc`, then the ipv4
CIDR load, then the ipv6 CIDR load.  Each `session.run` autocommits, so a
store error partway leaves the statements already run committed: the result
pairs the graph reached with the error, if any. -/
def load_ec2_vpcs (g : Graph) (data : List VpcRecord)
    (region current_aws_account_id : String) (aws_update_tag now : Nat) :
    Graph × Option String :=
  match data with
  | [] => (g, none)
  | vpc :: rest =>
    let g1 := runIngestVpc g vpc region current_aws_account_id aws_update_tag now
    match load_cidr_association_set g1 vpc.VpcId vpc "ipv4" aws_update_tag now with
    | .error e => (g1, some e)
    | .ok g2 =>
      match load_cidr_association_set g2 vpc.VpcId vpc "ipv6" aws_update_tag now with
      | .error e => (g2, some e)
      | .ok g3 => load_ec2_vpcs g3 rest region current_aws_account_id aws_update_tag now

/-! Embedding of `cartography/intel/aws/eks.py`. -/

/-- One entry of `logging.clusterLogging`.  `types` and `enabled` are
required keys (`f["types"]`, `f["enabled"]`). -/
structure EksLogEntry where
  types : List String
  enabled : Bool
deriving DecidableEq, Repr

/-- The `logging` sub-document of a cluster description. -/
structure EksClusterLogging where
  clusterLogging : Option (List EksLogEntry)
deriving DecidableEq, Repr

/-- The `resourcesVpcConfig` sub-document of a cluster description. -/
structure EksVpcConfig where
  endpointPublicAccess : Option Bool
deriving DecidableEq, Repr

/-- One `describe_cluster` response body.  `arn` and `name` are required
(`cluster["arn"]`, `cluster["name"]`); the rest are read with `.get`. -/
structure EksCluster where
  arn : String
  name : String
  endpoint : Option String
  resourcesVpcConfig : Option EksVpcConfig
  roleArn : Option String
  version : Option String
  platformVersion : Option String
  status : Option String
  createdAt : Option String
  logging : Option EksClusterLogging
deriving DecidableEq, Repr

/-- One page of the `list_clusters` paginator; `page["clusters"]` is required. -/
structure EksPage where
  clusters : List String
deriving DecidableEq, Repr

/-- Python `str(x)` applied to an optional string: `str(None)` is the
literal string `None`. -/
def pyStr : Option String → String
  | none => "None"
  | some s => s

/-- Embeds `_audit_logging_enabled`: `"audit" in f["types"] and f["enabled"]`. -/
def audit_logging_enabled (f : EksLogEntry) : Bool :=
  f.types.contains "audit" && f.enabled

/-- Embeds `_process_logging`: read `cluster.get("logging", {}).get("clusterLogging")`;
when that field is truthy (present and non-empty), test whether any entry
passes `_audit_logging_enabled`. -/
def process_logging (cluster : EksCluster) : Bool :=
  let cluster_logging_field : Option (List EksLogEntry) :=
    (cluster.logging.getD ⟨none⟩).clusterLogging
  match cluster_logging_field with
  | none => false
  | some entries =>
    if entries.isEmpty then false
    else entries.any audit_logging_enabled

/-- Identity of the `EKSCluster` node keyed by the cluster arn. -/
def eksNid (arn : String) : NodeId := ⟨"EKSCluster", "id", arn⟩

/-- The `ON CREATE SET` list of the EKS ingest query, in query order. -/
def eksOnCreate (c : EksCluster) (region : String) (now : Nat) : List (String × Val) :=
  [("firstseen", .int now),
   ("arn", .str c.arn),
   ("name", .str c.name),
   ("region", .str region),
   ("created_at", .str (pyStr c.createdAt))]

/-- The `SET` list of the EKS ingest query, in query order. -/
def eksAlways (c : EksCluster) (epoch : Nat) : List (String × Val) :=
  [("lastupdated", .int epoch),
   ("endpoint", optStr c.endpoint),
   ("endpoint_public_access", optBool ((c.resourcesVpcConfig.getD ⟨none⟩).endpointPublicAccess)),
   ("rolearn", optStr c.roleArn),
   ("version", optStr c.version),
   ("platform_version", optStr c.platformVersion),
   ("status", optStr c.status),
   ("audit_logging", .bool (process_logging c))]

/-- One run of the EKS ingest query: merge the `EKSCluster` node, then
`MATCH (owner:AWSAccount...)` and, only when it resolves, merge the
ownership `RESOURCE` relationship. -/
def runIngestEksCluster (g : Graph) (c : EksCluster)
    (region current_aws_account_id : String) (aws_update_tag now : Nat) : Graph :=
  let nodes1 := mergeNode g.nodes (eksNid c.arn)
    (eksOnCreate c region now) (eksAlways c aws_update_tag)
  let rels1 :=
    if nodes1.any (fun n => n.nid = accountNid current_aws_account_id) then
      mergeRel g.rels "RESOURCE" (accountNid current_aws_account_id) (eksNid c.arn)
        [("firstseen", .int now)] [("lastupdated", .int aws_update_tag)]
    else g.rels
  { nodes := nodes1, rels := rels1 }

/-- Embeds `load_eks_clusters`: iterate the `cluster_data` mapping in
insertion order and run the ingest query on each value. -/
def load_eks_clusters (g : Graph) (cluster_data : List (String × EksCluster))
    (region current_aws_account_id : String) (aws_update_tag now : Nat) : Graph :=
  cluster_data.foldl
    (fun gi kv => runIngestEksCluster gi kv.2 region current_aws_account_id aws_update_tag now)
    g

/-! Embedding of `cartography/intel/aws/organizations.py`.  Python strings
are `List Char` underneath; `str.split` is embedded as `pySplit`. -/

/-- Python `s.split(sep)` on the character list of `s`: `"".split(sep)`
is `[""]`, and every separator occurrence starts a new piece. -/
def pySplit (sep : Char) : List Char → List (List Char)
  | [] => [[]]
  | c :: rest =>
    if c = sep then [] :: pySplit sep rest
    else
      match pySplit sep rest with
      | [] => [[c]]
      | h :: t => (c :: h) :: t

/-- Python `xs[i]`: `IndexError` when the index is out of range. -/
def pyIndex {α : Type} (xs : List α) (i : Nat) : Except String α :=
  match xs.get? i with
  | some x => .ok x
  | none => .error "IndexError: list index out of range"

/-- Embeds `get_account_from_arn`: `arn.split(":")[4]`. -/
def get_account_from_arn (arn : String) : Except String String :=
  (pyIndex ((pySplit ':' arn.data).map (fun cs => String.mk cs)) 4)

/-- The root principal ARN `load_aws_accounts` builds for an account id:
the f-string `arn:aws:iam::{account_id}:root`. -/
def rootArnOf (account_id : String) : String :=
  "arn:aws:iam::" ++ account_id ++ ":root"

/-- One run of the account ingest query: merge `AWSAccount{id}`, merge
`AWSPrincipal{arn: root_arn}`, then the `RESOURCE` relationship between
them (both were just merged, so no `MATCH` can fail here). -/
def runIngestAccount (g : Graph) (account_name account_id : String)
    (aws_update_tag now : Nat) : Graph :=
  let rootNid : NodeId := ⟨"AWSPrincipal", "arn", rootArnOf account_id⟩
  let nodes1 := mergeNode g.nodes (accountNid account_id)
    [("firstseen", .int now)]
    [("lastupdated", .int aws_update_tag), ("name", .str account_name)]
  let nodes2 := mergeNode nodes1 rootNid
    [("firstseen", .int now), ("type", .str "AWS")]
    [("lastupdated", .int aws_update_tag)]
  let rels1 := mergeRel g.rels "RESOURCE" (accountNid account_id) rootNid
    [("firstseen", .int now)] [("lastupdated", .int aws_update_tag)]
  { nodes := nodes2, rels := rels1 }

/-- Embeds `load_aws_accounts`: iterate `aws_accounts.items()` and run the
ingest query for each `(account_name, account_id)` pair. -/
def load_aws_accounts (g : Graph) (aws_accounts : List (String × String))
    (aws_update_tag now : Nat) : Graph :=
  aws_accounts.foldl
    (fun gi kv => runIngestAccount gi kv.1 kv.2 aws_update_tag now)
    g

/-! Fetch and orchestration.  The boto3 clients are external collaborators;
one underlying provider call is modelled as an oracle from region to a
`FetchOutcome`. -/

/-- Outcome of one underlying provider call for a region: data, a
capability-unsupported condition (the provider does not offer this resource
kind in this region), or a transient failure. -/
inductive FetchOutcome (α : Type) where
  | ok (data : α)
  | unsupported
  | err (msg : String)
deriving DecidableEq, Repr

/-- Map the data of a successful outcome. -/
def FetchOutcome.mapData {α β : Type} (f : α → β) : FetchOutcome α → FetchOutcome β
  | .ok d => .ok (f d)
  | .unsupported => .unsupported
  | .err m => .err m

/-- Modelled from the spec: the `aws_handle_regions` decorator
(`cartography.util`, not under src) classifies a capability-unsupported
provider condition as an empty, successful result, and lets any other
failure propagate. -/
def awsHandleRegions {α : Type} (emptyResult : α) : FetchOutcome α → Except String α
  | .ok d => .ok d
  | .unsupported => .ok emptyResult
  | .err m => .error m

/-- Embeds `get_ec2_vpcs` (wrapped in `aws_handle_regions`): the
`describe_vpcs()["Vpcs"]` call for one region, via the oracle. -/
def get_ec2_vpcs (oracle : String → FetchOutcome (List VpcRecord)) (region : String) :
    Except String (List VpcRecord) :=
  awsHandleRegions [] (oracle region)

/-- The pagination loop of `get_eks_clusters`: start from the empty list and
extend it with each page's `clusters` entries, in page order. -/
def eksPaginate (pages : List EksPage) : List String :=
  pages.foldl (fun clusters page => clusters ++ page.clusters) []

/-- Embeds `get_eks_clusters` (wrapped in `aws_handle_regions`): paginate
`list_clusters` for one region, via the oracle. -/
def get_eks_clusters (oracle : String → FetchOutcome (List EksPage)) (region : String) :
    Except String (List String) :=
  awsHandleRegions [] ((oracle region).mapData eksPaginate)

/-- Embeds `get_eks_describe_cluster` (not wrapped in `aws_handle_regions`):
one `describe_cluster` call, via its oracle. -/
def get_eks_describe_cluster (descOracle : String → String → Except String EksCluster)
    (region cluster_name : String) : Except String EksCluster :=
  descOracle region cluster_name

/-- Modelled from the spec: `run_cleanup_job` and the cleanup-job json
descriptors (`aws_import_vpc_cleanup.json`, `aws_import_eks_cleanup.json`,
`aws_account_cleanup.json`) are not under src; per the spec a cleanup pass
deletes every node of the kind whose `lastupdated` differs from the current
epoch, together with its incident relationships and stale relationships of
the kind. -/
def runCleanupJob (labels : List String) (epoch : Nat) (g : Graph) : Graph :=
  let keep : Node → Bool := fun n =>
    decide (n.nid.label ∉ labels ∨ getAttr n.attrs "lastupdated" = .int epoch)
  let nodes := g.nodes.filter keep
  let alive : NodeId → Bool := fun i => nodes.any (fun n => n.nid = i)
  { nodes := nodes, rels := g.rels.filter (fun r => alive r.src && alive r.dst) }

/-- Embeds `cleanup_ec2_vpcs`: run `aws_import_vpc_cleanup.json`, which
targets the VPC kind's labels. -/
def cleanup_ec2_vpcs (g : Graph) (epoch : Nat) : Graph :=
  runCleanupJob ["AWSVpc", "AWSCidrBlock:AWSIpv4CidrBlock", "AWSCidrBlock:AWSIpv6CidrBlock"]
    epoch g

/-- Embeds the EKS `cleanup`: run `aws_import_eks_cleanup.json`, which
targets the EKS cluster label. -/
def cleanup_eks (g : Graph) (epoch : Nat) : Graph :=
  runCleanupJob ["EKSCluster"] epoch g

/-- Observable steps of one sync pass, for stating ordering properties. -/
inductive SyncEvent where
  | fetched (region : String)
  | merged (region : String)
  | cleanup
deriving DecidableEq, Repr

/-- Result of one sync pass: the steps that completed, in order, the graph
reached, and the error that aborted the pass, if any (a raised exception
propagates out of the sync function, skipping everything after it). -/
structure SyncResult where
  events : List SyncEvent
  graph : Graph
  errored : Option String
deriving DecidableEq, Repr

/-- The region loop of `sync_vpc`: fetch then load per region; an exception
from either aborts the pass.  After the last region, `cleanup_ec2_vpcs`. -/
def syncVpcGo (oracle : String → FetchOutcome (List VpcRecord))
    (current_aws_account_id : String) (aws_update_tag now : Nat)
    (g : Graph) (evs : List SyncEvent) : List String → SyncResult
  | [] => { events := evs ++ [.cleanup], graph := cleanup_ec2_vpcs g aws_update_tag,
            errored := none }
  | region :: rest =>
    match get_ec2_vpcs oracle region with
    | .error m => { events := evs, graph := g, errored := some m }
    | .ok data =>
      match load_ec2_vpcs g data region current_aws_account_id aws_update_tag now with
      | (g', some m) => { events := evs ++ [.fetched region], graph := g', errored := some m }
      | (g', none) =>
        syncVpcGo oracle current_aws_account_id aws_update_tag now g'
          (evs ++ [.fetched region, .merged region]) rest

/-- Embeds `sync_vpc`: loop over the account's regions, then clean up. -/
def sync_vpc (g : Graph) (oracle : String → FetchOutcome (List VpcRecord))
    (regions : List String) (current_aws_account_id : String)
    (aws_update_tag now : Nat) : SyncResult :=
  syncVpcGo oracle current_aws_account_id aws_update_tag now g [] regions

/-- The per-region dict build of the EKS `sync`: describe every listed
cluster, in order; a describe failure propagates. -/
def buildClusterData (descOracle : String → String → Except String EksCluster)
    (region : String) : List String → Except String (List (String × EksCluster))
  | [] => .ok []
  | cluster_name :: rest =>
    match get_eks_describe_cluster descOracle region cluster_name with
    | .error e => .error e
    | .ok c =>
      match buildClusterData descOracle region rest with
      | .error e => .error e
      | .ok t => .ok ((cluster_name, c) :: t)

/-- The region loop of the EKS `sync`: list clusters, describe each, load;
an exception from any fetch aborts the pass.  After the last region, the
EKS cleanup. -/
def syncEksGo (oracle : String → FetchOutcome (List EksPage))
    (descOracle : String → String → Except String EksCluster)
    (current_aws_account_id : String) (aws_update_tag now : Nat)
    (g : Graph) (evs : List SyncEvent) : List String → SyncResult
  | [] => { events := evs ++ [.cleanup], graph := cleanup_eks g aws_update_tag,
            errored := none }
  | region :: rest =>
    match get_eks_clusters oracle region with
    | .error m => { events := evs, graph := g, errored := some m }
    | .ok clusters =>
      match buildClusterData descOracle region clusters with
      | .error m => { events := evs, graph := g, errored := some m }
      | .ok cluster_data =>
        let g' := load_eks_clusters g cluster_data region current_aws_account_id
          aws_update_tag now
        syncEksGo oracle descOracle current_aws_account_id aws_update_tag now g'
          (evs ++ [.fetched region, .merged region]) rest

/-- Embeds the EKS `sync`: loop over the account's regions, then clean up. -/
def sync_eks (g : Graph) (oracle : String → FetchOutcome (List EksPage))
    (descOracle : String → String → Except String EksCluster)
    (regions : List String) (current_aws_account_id : String)
    (aws_update_tag now : Nat) : SyncResult :=
  syncEksGo oracle descOracle current_aws_account_id aws_update_tag now g [] regions

/-! Lemmas about the attribute map. -/

theorem find?_filter_key_none (a : Attrs) (k : String) :
    (a.filter (fun kv => kv.1 ≠ k)).find? (fun kv => kv.1 = k) = none := by
  rw [List.find?_eq_none]
  intro x hx
  simp only [List.mem_filter, decide_eq_true_eq] at hx
  simp [hx.2]

theorem find?_filter_key_ne (a : Attrs) (k k' : String) (h : k' ≠ k) :
    (a.filter (fun kv => kv.1 ≠ k)).find? (fun kv => kv.1 = k') =
      a.find? (fun kv => kv.1 = k') := by
  induction a with
  | nil => rfl
  | cons x a ih =>
    by_cases hx : x.1 = k
    · have hx' : ¬x.1 = k' := fun hh => h (hh.symm.trans hx)
      rw [List.filter_cons_of_neg (by simp [hx]),
        List.find?_cons_of_neg _ (by simp [hx'])]
      exact ih
    · by_cases hx' : x.1 = k'
      · rw [List.filter_cons_of_pos (by simp [hx]),
          List.find?_cons_of_pos _ (by simp [hx']),
          List.find?_cons_of_pos _ (by simp [hx'])]
      · rw [List.filter_cons_of_pos (by simp [hx]),
          List.find?_cons_of_neg _ (by simp [hx']),
          List.find?_cons_of_neg _ (by simp [hx'])]
        exact ih

theorem getAttr_setAttr_self (a : Attrs) (k : String) (v : Val) :
    getAttr (setAttr a k v) k = v := by
  cases v with
  | null =>
    simp only [setAttr, getAttr]
    rw [find?_filter_key_none]
  | str s =>
    simp only [setAttr, getAttr]
    rw [List.find?_append, find?_filter_key_none]
    simp [List.find?_cons]
  | int n =>
    simp only [setAttr, getAttr]
    rw [List.find?_append, find?_filter_key_none]
    simp [List.find?_cons]
  | bool b =>
    simp only [setAttr, getAttr]
    rw [List.find?_append, find?_filter_key_none]
    simp [List.find?_cons]

theorem getAttr_setAttr_ne (a : Attrs) (k k' : String) (v : Val) (h : k' ≠ k) :
    getAttr (setAttr a k v) k' = getAttr a k' := by
  have hsingle : List.find? (fun kv => kv.1 = k') [(k, v)] = none := by
    rw [List.find?_cons_of_neg _ (by simp [Ne.symm h])]
    rfl
  cases v with
  | null =>
    simp only [setAttr, getAttr]
    rw [find?_filter_key_ne a k k' h]
  | str s =>
    simp only [setAttr, getAttr]
    rw [List.find?_append, find?_filter_key_ne a k k' h, hsingle, Option.or_none]
  | int n =>
    simp only [setAttr, getAttr]
    rw [List.find?_append, find?_filter_key_ne a k k' h, hsingle, Option.or_none]
  | bool b =>
    simp only [setAttr, getAttr]
    rw [List.find?_append, find?_filter_key_ne a k k' h, hsingle, Option.or_none]

theorem getAttr_setAttrs_not_mem (kvs : List (String × Val)) (a : Attrs) (k : String)
    (h : ∀ kv ∈ kvs, kv.1 ≠ k) :
    getAttr (setAttrs a kvs) k = getAttr a k := by
  induction kvs generalizing a with
  | nil => rfl
  | cons kv rest ih =>
    have hstep : setAttrs a (kv :: rest) = setAttrs (setAttr a kv.1 kv.2) rest := rfl
    rw [hstep, ih _ (fun x hx => h x (List.mem_cons_of_mem _ hx))]
    exact getAttr_setAttr_ne a kv.1 k kv.2 (Ne.symm (h kv (List.mem_cons_self _ _)))

theorem setAttrs_cons (a : Attrs) (k : String) (v : Val) (rest : List (String × Val)) :
    setAttrs a ((k, v) :: rest) = setAttrs (setAttr a k v) rest := rfl

/-! Lemmas about node lookup and `mergeNode`. -/

theorem updNid (i : NodeId) (G : Node → Node) (hG : ∀ n, (G n).nid = n.nid) (n : Node) :
    (if n.nid = i then G n else n).nid = n.nid := by
  by_cases hn : n.nid = i
  · rw [if_pos hn, hG]
  · rw [if_neg hn]

theorem findNode_map_update (ns : List Node) (i j : NodeId) (G : Node → Node)
    (hG : ∀ n, (G n).nid = n.nid) :
    findNode (ns.map (fun n => if n.nid = i then G n else n)) j =
      (findNode ns j).map (fun n => if n.nid = i then G n else n) := by
  induction ns with
  | nil => rfl
  | cons x ns ih =>
    by_cases hx : x.nid = j
    · unfold findNode
      rw [List.map_cons,
        List.find?_cons_of_pos _ (by rw [updNid i G hG x]; exact decide_eq_true hx),
        List.find?_cons_of_pos _ (by simp [hx])]
      rfl
    · unfold findNode
      rw [List.map_cons,
        List.find?_cons_of_neg _ (by rw [updNid i G hG x]; simp [hx]),
        List.find?_cons_of_neg _ (by simp [hx])]
      exact ih

theorem findNode_append_single (ns : List Node) (x : Node) (j : NodeId) :
    findNode (ns ++ [x]) j = (findNode ns j).or (findNode [x] j) := by
  unfold findNode
  rw [List.find?_append]

theorem findNode_isSome_of_any (ns : List Node) (i : NodeId)
    (h : ns.any (fun n => n.nid = i) = true) : ∃ n, findNode ns i = some n := by
  cases hf : findNode ns i with
  | some n => exact ⟨n, rfl⟩
  | none =>
    rw [List.any_eq_true] at h
    obtain ⟨x, hx, hp⟩ := h
    unfold findNode at hf
    rw [List.find?_eq_none] at hf
    exact absurd hp (hf x hx)

theorem findNode_eq_none_of_not_any (ns : List Node) (i : NodeId)
    (h : ¬ns.any (fun n => n.nid = i) = true) : findNode ns i = none := by
  unfold findNode
  rw [List.find?_eq_none]
  intro x hx hp
  exact h (List.any_eq_true.mpr ⟨x, hx, hp⟩)

theorem nid_of_findNode (ns : List Node) (i : NodeId) (n : Node)
    (h : findNode ns i = some n) : n.nid = i := by
  unfold findNode at h
  have hp := List.find?_some h
  simp only [decide_eq_true_eq] at hp
  exact hp

theorem findNode_mergeNode_self (ns : List Node) (i : NodeId)
    (oc om : List (String × Val)) :
    findNode (mergeNode ns i oc om) i =
      some (match findNode ns i with
        | some n => { n with attrs := setAttrs n.attrs om }
        | none => { nid := i, attrs := setAttrs (setAttrs [] oc) om }) := by
  unfold mergeNode
  by_cases h : ns.any (fun n => n.nid = i) = true
  · rw [if_pos h]
    obtain ⟨n, hn⟩ := findNode_isSome_of_any ns i h
    rw [findNode_map_update ns i i (fun n => { n with attrs := setAttrs n.attrs om })
      (fun _ => rfl), hn]
    have hni := nid_of_findNode ns i n hn
    simp [hni]
  · rw [if_neg h]
    have hnone := findNode_eq_none_of_not_any ns i h
    rw [findNode_append_single, hnone, Option.none_or]
    unfold findNode
    rw [List.find?_cons_of_pos _ (by simp)]

theorem findNode_mergeNode_ne (ns : List Node) (i j : NodeId)
    (oc om : List (String × Val)) (h : j ≠ i) :
    findNode (mergeNode ns i oc om) j = findNode ns j := by
  unfold mergeNode
  by_cases hA : ns.any (fun n => n.nid = i) = true
  · rw [if_pos hA, findNode_map_update ns i j
      (fun n => { n with attrs := setAttrs n.attrs om }) (fun _ => rfl)]
    cases hf : findNode ns j with
    | none => rfl
    | some n =>
      have hn := nid_of_findNode ns j n hf
      have hni : ¬n.nid = i := fun hh => h (hn ▸ hh)
      simp [hni]
  · rw [if_neg hA, findNode_append_single]
    cases hf : findNode ns j with
    | some n => rfl
    | none =>
      rw [Option.none_or]
      unfold findNode
      rw [List.find?_cons_of_neg _ (by simp [Ne.symm h])]
      rfl

theorem countNid_mergeNode_match (ns : List Node) (i : NodeId)
    (oc om : List (String × Val)) (h : ns.any (fun n => n.nid = i) = true) (j : NodeId) :
    countNid (mergeNode ns i oc om) j = countNid ns j := by
  unfold mergeNode countNid
  rw [if_pos h, List.countP_map]
  refine List.countP_congr (fun x _ => ?_)
  by_cases hxi : x.nid = i
  · simp [hxi]
  · simp [hxi]

theorem countNid_mergeNode_new_self (ns : List Node) (i : NodeId)
    (oc om : List (String × Val)) (h : ¬ns.any (fun n => n.nid = i) = true) :
    countNid (mergeNode ns i oc om) i = countNid ns i + 1 := by
  unfold mergeNode countNid
  rw [if_neg h, List.countP_append]
  simp [List.countP_cons]

theorem countNid_mergeNode_new_ne (ns : List Node) (i j : NodeId)
    (oc om : List (String × Val)) (h : ¬ns.any (fun n => n.nid = i) = true) (hj : j ≠ i) :
    countNid (mergeNode ns i oc om) j = countNid ns j := by
  unfold mergeNode countNid
  rw [if_neg h, List.countP_append]
  simp [List.countP_cons, Ne.symm hj]

theorem countNid_mergeNode_ne (ns : List Node) (i j : NodeId)
    (oc om : List (String × Val)) (hj : j ≠ i) :
    countNid (mergeNode ns i oc om) j = countNid ns j := by
  by_cases h : ns.any (fun n => n.nid = i) = true
  · exact countNid_mergeNode_match ns i oc om h j
  · exact countNid_mergeNode_new_ne ns i j oc om h hj

/-! Lemmas about relationship lookup and `mergeRel`. -/

/-- First relationship with the given type and endpoints (the identity a
relationship `MERGE` matches on). -/
def findRel (rs : List Rel) (t : String) (src dst : NodeId) : Option Rel :=
  rs.find? (fun r => r.relType = t ∧ r.src = src ∧ r.dst = dst)

theorem relKey_of_findRel (rs : List Rel) (t : String) (src dst : NodeId) (r : Rel)
    (h : findRel rs t src dst = some r) : r.relType = t ∧ r.src = src ∧ r.dst = dst := by
  unfold findRel at h
  have hp := List.find?_some h
  simp only [decide_eq_true_eq] at hp
  exact hp

theorem findRel_map_update (rs : List Rel) (t : String) (src dst : NodeId)
    (t' : String) (src' dst' : NodeId) (G : Rel → Rel)
    (hG : ∀ r, (G r).relType = r.relType ∧ (G r).src = r.src ∧ (G r).dst = r.dst) :
    findRel (rs.map (fun r => if r.relType = t ∧ r.src = src ∧ r.dst = dst then G r else r))
        t' src' dst' =
      (findRel rs t' src' dst').map
        (fun r => if r.relType = t ∧ r.src = src ∧ r.dst = dst then G r else r) := by
  have hkey : ∀ r : Rel,
      ((if r.relType = t ∧ r.src = src ∧ r.dst = dst then G r else r).relType = t' ∧
       (if r.relType = t ∧ r.src = src ∧ r.dst = dst then G r else r).src = src' ∧
       (if r.relType = t ∧ r.src = src ∧ r.dst = dst then G r else r).dst = dst') ↔
      (r.relType = t' ∧ r.src = src' ∧ r.dst = dst') := by
    intro r
    by_cases hr : r.relType = t ∧ r.src = src ∧ r.dst = dst
    · rw [if_pos hr, (hG r).1, (hG r).2.1, (hG r).2.2]
    · rw [if_neg hr]
  induction rs with
  | nil => rfl
  | cons x rs ih =>
    by_cases hx : x.relType = t' ∧ x.src = src' ∧ x.dst = dst'
    · unfold findRel
      rw [List.map_cons,
        List.find?_cons_of_pos _ (by simp only [decide_eq_true_eq]; exact (hkey x).mpr hx),
        List.find?_cons_of_pos _ (by simp only [decide_eq_true_eq]; exact hx)]
      rfl
    · unfold findRel
      rw [List.map_cons,
        List.find?_cons_of_neg _ (by simp only [decide_eq_true_eq]; exact fun hh => hx ((hkey x).mp hh)),
        List.find?_cons_of_neg _ (by simp only [decide_eq_true_eq]; exact hx)]
      exact ih

theorem findRel_isSome_of_any (rs : List Rel) (t : String) (src dst : NodeId)
    (h : rs.any (fun r => r.relType = t ∧ r.src = src ∧ r.dst = dst) = true) :
    ∃ r, findRel rs t src dst = some r := by
  cases hf : findRel rs t src dst with
  | some r => exact ⟨r, rfl⟩
  | none =>
    rw [List.any_eq_true] at h
    obtain ⟨x, hx, hp⟩ := h
    unfold findRel at hf
    rw [List.find?_eq_none] at hf
    exact absurd hp (hf x hx)

theorem findRel_eq_none_of_not_any (rs : List Rel) (t : String) (src dst : NodeId)
    (h : ¬rs.any (fun r => r.relType = t ∧ r.src = src ∧ r.dst = dst) = true) :
    findRel rs t src dst = none := by
  unfold findRel
  rw [List.find?_eq_none]
  intro x hx hp
  exact h (List.any_eq_true.mpr ⟨x, hx, hp⟩)

theorem findRel_mergeRel_self (rs : List Rel) (t : String) (src dst : NodeId)
    (oc om : List (String × Val)) :
    findRel (mergeRel rs t src dst oc om) t src dst =
      some (match findRel rs t src dst with
        | some r => { r with attrs := setAttrs r.attrs om }
        | none => { relType := t, src := src, dst := dst,
                    attrs := setAttrs (setAttrs [] oc) om }) := by
  unfold mergeRel
  by_cases h : rs.any (fun r => r.relType = t ∧ r.src = src ∧ r.dst = dst) = true
  · rw [if_pos h]
    obtain ⟨r, hr⟩ := findRel_isSome_of_any rs t src dst h
    rw [findRel_map_update rs t src dst t src dst
      (fun r => { r with attrs := setAttrs r.attrs om }) (fun _ => ⟨rfl, rfl, rfl⟩), hr]
    have hk := relKey_of_findRel rs t src dst r hr
    simp [hk.1, hk.2.1, hk.2.2]
  · rw [if_neg h]
    have hnone := findRel_eq_none_of_not_any rs t src dst h
    unfold findRel
    rw [List.find?_append]
    unfold findRel at hnone
    rw [hnone, Option.none_or, List.find?_cons_of_pos _ (by simp)]

theorem findRel_mergeRel_ne (rs : List Rel) (t : String) (src dst : NodeId)
    (t' : String) (src' dst' : NodeId) (oc om : List (String × Val))
    (h : ¬(t' = t ∧ src' = src ∧ dst' = dst)) :
    findRel (mergeRel rs t src dst oc om) t' src' dst' = findRel rs t' src' dst' := by
  unfold mergeRel
  by_cases hA : rs.any (fun r => r.relType = t ∧ r.src = src ∧ r.dst = dst) = true
  · rw [if_pos hA, findRel_map_update rs t src dst t' src' dst'
      (fun r => { r with attrs := setAttrs r.attrs om }) (fun _ => ⟨rfl, rfl, rfl⟩)]
    cases hf : findRel rs t' src' dst' with
    | none => rfl
    | some r =>
      have hk := relKey_of_findRel rs t' src' dst' r hf
      have hne : ¬(r.relType = t ∧ r.src = src ∧ r.dst = dst) := by
        intro hh
        exact h ⟨hk.1 ▸ hh.1, hk.2.1 ▸ hh.2.1, hk.2.2 ▸ hh.2.2⟩
      simp [hne]
  · rw [if_neg hA]
    unfold findRel
    rw [List.find?_append]
    cases hf : List.find? (fun r => r.relType = t' ∧ r.src = src' ∧ r.dst = dst') rs with
    | some r => rfl
    | none =>
      rw [Option.none_or, List.find?_cons_of_neg _ (by
        simp only [decide_eq_true_eq]
        exact fun hh => h ⟨hh.1.symm, hh.2.1.symm, hh.2.2.symm⟩)]
      rfl

/-! The firstseen contract: across a write, every node/relationship identity
that already existed keeps its `firstseen` value, and every identity that
appears carries `firstseen = timestamp()` of this pass. -/

/-- Firstseen contract on node lists. -/
def nodesFsContract (now : Nat) (ns ns' : List Node) : Prop :=
  (∀ i n, findNode ns i = some n → ∃ n', findNode ns' i = some n' ∧
      getAttr n'.attrs "firstseen" = getAttr n.attrs "firstseen") ∧
  (∀ i n', findNode ns' i = some n' → findNode ns i = none →
      getAttr n'.attrs "firstseen" = .int now)

/-- Firstseen contract on relationship lists. -/
def relsFsContract (now : Nat) (rs rs' : List Rel) : Prop :=
  (∀ t s d r, findRel rs t s d = some r → ∃ r', findRel rs' t s d = some r' ∧
      getAttr r'.attrs "firstseen" = getAttr r.attrs "firstseen") ∧
  (∀ t s d r', findRel rs' t s d = some r' → findRel rs t s d = none →
      getAttr r'.attrs "firstseen" = .int now)

/-- Firstseen contract on whole graphs. -/
def graphFsContract (now : Nat) (g g' : Graph) : Prop :=
  nodesFsContract now g.nodes g'.nodes ∧ relsFsContract now g.rels g'.rels

theorem nodesFsContract_refl (now : Nat) (ns : List Node) : nodesFsContract now ns ns :=
  ⟨fun _ n h => ⟨n, h, rfl⟩,
   fun _ n' h hn => Option.noConfusion (h.symm.trans hn)⟩

theorem relsFsContract_refl (now : Nat) (rs : List Rel) : relsFsContract now rs rs :=
  ⟨fun _ _ _ r h => ⟨r, h, rfl⟩,
   fun _ _ _ r' h hn => Option.noConfusion (h.symm.trans hn)⟩

theorem graphFsContract_refl (now : Nat) (g : Graph) : graphFsContract now g g :=
  ⟨nodesFsContract_refl now g.nodes, relsFsContract_refl now g.rels⟩

theorem nodesFsContract_trans (now : Nat) (ns1 ns2 ns3 : List Node)
    (h12 : nodesFsContract now ns1 ns2) (h23 : nodesFsContract now ns2 ns3) :
    nodesFsContract now ns1 ns3 := by
  constructor
  · intro i n h1
    obtain ⟨m, hm, hfsm⟩ := h12.1 i n h1
    obtain ⟨n', hn', hfsn⟩ := h23.1 i m hm
    exact ⟨n', hn', hfsn.trans hfsm⟩
  · intro i n' h3 h1
    cases hm : findNode ns2 i with
    | none => exact h23.2 i n' h3 hm
    | some m =>
      have hfsm := h12.2 i m hm h1
      obtain ⟨n'', hn'', hfs⟩ := h23.1 i m hm
      have he : n'' = n' := by
        have := hn''.symm.trans h3
        injection this
      rw [← he, hfs, hfsm]

theorem relsFsContract_trans (now : Nat) (rs1 rs2 rs3 : List Rel)
    (h12 : relsFsContract now rs1 rs2) (h23 : relsFsContract now rs2 rs3) :
    relsFsContract now rs1 rs3 := by
  constructor
  · intro t s d r h1
    obtain ⟨m, hm, hfsm⟩ := h12.1 t s d r h1
    obtain ⟨r', hr', hfsr⟩ := h23.1 t s d m hm
    exact ⟨r', hr', hfsr.trans hfsm⟩
  · intro t s d r' h3 h1
    cases hm : findRel rs2 t s d with
    | none => exact h23.2 t s d r' h3 hm
    | some m =>
      have hfsm := h12.2 t s d m hm h1
      obtain ⟨r'', hr'', hfs⟩ := h23.1 t s d m hm
      have he : r'' = r' := by
        have := hr''.symm.trans h3
        injection this
      rw [← he, hfs, hfsm]

theorem graphFsContract_trans (now : Nat) (g1 g2 g3 : Graph)
    (h12 : graphFsContract now g1 g2) (h23 : graphFsContract now g2 g3) :
    graphFsContract now g1 g3 :=
  ⟨nodesFsContract_trans now _ _ _ h12.1 h23.1,
   relsFsContract_trans now _ _ _ h12.2 h23.2⟩

theorem mergeNode_fsContract (now : Nat) (ns : List Node) (i : NodeId)
    (oc om : List (String × Val))
    (hc : getAttr (setAttrs (setAttrs [] oc) om) "firstseen" = .int now)
    (hm : ∀ kv ∈ om, kv.1 ≠ "firstseen") :
    nodesFsContract now ns (mergeNode ns i oc om) := by
  constructor
  · intro j n hj
    by_cases hji : j = i
    · subst hji
      rw [findNode_mergeNode_self ns j oc om, hj]
      exact ⟨_, rfl, getAttr_setAttrs_not_mem om n.attrs "firstseen" hm⟩
    · rw [findNode_mergeNode_ne ns i j oc om hji]
      exact ⟨n, hj, rfl⟩
  · intro j n' hj' hjnone
    by_cases hji : j = i
    · subst hji
      rw [findNode_mergeNode_self ns j oc om, hjnone] at hj'
      injection hj' with he
      rw [← he]
      exact hc
    · rw [findNode_mergeNode_ne ns i j oc om hji, hjnone] at hj'
      cases hj'

theorem mergeRel_fsContract (now : Nat) (rs : List Rel) (t : String) (src dst : NodeId)
    (oc om : List (String × Val))
    (hc : getAttr (setAttrs (setAttrs [] oc) om) "firstseen" = .int now)
    (hm : ∀ kv ∈ om, kv.1 ≠ "firstseen") :
    relsFsContract now rs (mergeRel rs t src dst oc om) := by
  constructor
  · intro t' s' d' r hr
    by_cases hk : t' = t ∧ s' = src ∧ d' = dst
    · obtain ⟨h1, h2, h3⟩ := hk
      subst h1; subst h2; subst h3
      rw [findRel_mergeRel_self rs t' s' d' oc om, hr]
      exact ⟨_, rfl, getAttr_setAttrs_not_mem om r.attrs "firstseen" hm⟩
    · rw [findRel_mergeRel_ne rs t src dst t' s' d' oc om hk]
      exact ⟨r, hr, rfl⟩
  · intro t' s' d' r' hr' hnone
    by_cases hk : t' = t ∧ s' = src ∧ d' = dst
    · obtain ⟨h1, h2, h3⟩ := hk
      subst h1; subst h2; subst h3
      rw [findRel_mergeRel_self rs t' s' d' oc om, hnone] at hr'
      injection hr' with he
      rw [← he]
      exact hc
    · rw [findRel_mergeRel_ne rs t src dst t' s' d' oc om hk, hnone] at hr'
      cases hr'

/-! Per-query facts: no `SET` clause of any ingest query touches `firstseen`,
and every `ON CREATE SET` clause sets it to `timestamp()`. -/

theorem vpcAlways_no_fs (vpc : VpcRecord) (region : String) (epoch : Nat) :
    ∀ kv ∈ vpcAlways vpc region epoch, kv.1 ≠ "firstseen" := by
  intro kv hkv
  fin_cases hkv <;> simp

theorem eksAlways_no_fs (c : EksCluster) (epoch : Nat) :
    ∀ kv ∈ eksAlways c epoch, kv.1 ≠ "firstseen" := by
  intro kv hkv
  fin_cases hkv <;> simp

theorem lastupd_no_fs (e : Nat) :
    ∀ kv ∈ [("lastupdated", Val.int e)], kv.1 ≠ "firstseen" := by
  intro kv hkv
  fin_cases hkv <;> simp

theorem account_om_no_fs (e : Nat) (name : String) :
    ∀ kv ∈ [("lastupdated", Val.int e), ("name", Val.str name)], kv.1 ≠ "firstseen" := by
  intro kv hkv
  fin_cases hkv <;> simp

theorem block_om_no_fs (v1 v2 v3 v4 : Val) (e : Nat) :
    ∀ kv ∈ [("association_id", v1), ("cidr_block", v2), ("block_state", v3),
      ("block_state_message", v4), ("lastupdated", Val.int e)], kv.1 ≠ "firstseen" := by
  intro kv hkv
  fin_cases hkv <;> simp

theorem fs_new_vpc (now : Nat) (vpcId : String) (vpc : VpcRecord) (region : String)
    (epoch : Nat) :
    getAttr (setAttrs (setAttrs [] (vpcOnCreate now vpcId)) (vpcAlways vpc region epoch))
      "firstseen" = .int now := by
  rw [getAttr_setAttrs_not_mem _ _ _ (vpcAlways_no_fs vpc region epoch)]
  simp only [vpcOnCreate, setAttrs, List.foldl]
  rw [getAttr_setAttr_ne _ _ _ _ (by decide), getAttr_setAttr_self]

theorem fs_new_eks (c : EksCluster) (region : String) (epoch now : Nat) :
    getAttr (setAttrs (setAttrs [] (eksOnCreate c region now)) (eksAlways c epoch))
      "firstseen" = .int now := by
  rw [getAttr_setAttrs_not_mem _ _ _ (eksAlways_no_fs c epoch)]
  simp only [eksOnCreate, setAttrs, List.foldl]
  rw [getAttr_setAttr_ne _ _ _ _ (by decide), getAttr_setAttr_ne _ _ _ _ (by decide),
    getAttr_setAttr_ne _ _ _ _ (by decide), getAttr_setAttr_ne _ _ _ _ (by decide),
    getAttr_setAttr_self]

theorem fs_new_relattrs (now epoch : Nat) :
    getAttr (setAttrs (setAttrs [] [("firstseen", Val.int now)])
      [("lastupdated", Val.int epoch)]) "firstseen" = .int now := by
  simp only [setAttrs, List.foldl]
  rw [getAttr_setAttr_ne _ _ _ _ (by decide), getAttr_setAttr_self]

theorem fs_new_account (now epoch : Nat) (name : String) :
    getAttr (setAttrs (setAttrs [] [("firstseen", Val.int now)])
      [("lastupdated", Val.int epoch), ("name", Val.str name)]) "firstseen" = .int now := by
  simp only [setAttrs, List.foldl]
  rw [getAttr_setAttr_ne _ _ _ _ (by decide), getAttr_setAttr_ne _ _ _ _ (by decide),
    getAttr_setAttr_self]

theorem fs_new_principal (now epoch : Nat) :
    getAttr (setAttrs (setAttrs [] [("firstseen", Val.int now), ("type", Val.str "AWS")])
      [("lastupdated", Val.int epoch)]) "firstseen" = .int now := by
  simp only [setAttrs, List.foldl]
  rw [getAttr_setAttr_ne _ _ _ _ (by decide), getAttr_setAttr_ne _ _ _ _ (by decide),
    getAttr_setAttr_self]

theorem fs_new_block (now : Nat) (v1 v2 v3 v4 : Val) (e : Nat) :
    getAttr (setAttrs (setAttrs [] [("firstseen", Val.int now)])
      [("association_id", v1), ("cidr_block", v2), ("block_state", v3),
       ("block_state_message", v4), ("lastupdated", Val.int e)]) "firstseen" = .int now := by
  rw [getAttr_setAttrs_not_mem _ _ _ (block_om_no_fs v1 v2 v3 v4 e)]
  simp only [setAttrs, List.foldl]
  rw [getAttr_setAttr_self]

/-! Firstseen contract for each write step and each load function. -/

theorem runIngestVpc_fsContract (g : Graph) (vpc : VpcRecord) (region acct : String)
    (epoch now : Nat) :
    graphFsContract now g (runIngestVpc g vpc region acct epoch now) := by
  refine ⟨?_, ?_⟩
  · exact mergeNode_fsContract now g.nodes (vpcNid vpc.VpcId) _ _
      (fs_new_vpc now vpc.VpcId vpc region epoch) (vpcAlways_no_fs vpc region epoch)
  · show relsFsContract now g.rels (runIngestVpc g vpc region acct epoch now).rels
    simp only [runIngestVpc]
    split
    · exact mergeRel_fsContract now g.rels "RESOURCE" (accountNid acct) (vpcNid vpc.VpcId)
        _ _ (fs_new_relattrs now epoch) (lastupd_no_fs epoch)
    · exact relsFsContract_refl now g.rels

theorem runIngestEksCluster_fsContract (g : Graph) (c : EksCluster) (region acct : String)
    (epoch now : Nat) :
    graphFsContract now g (runIngestEksCluster g c region acct epoch now) := by
  refine ⟨?_, ?_⟩
  · exact mergeNode_fsContract now g.nodes (eksNid c.arn) _ _
      (fs_new_eks c region epoch now) (eksAlways_no_fs c epoch)
  · show relsFsContract now g.rels (runIngestEksCluster g c region acct epoch now).rels
    simp only [runIngestEksCluster]
    split
    · exact mergeRel_fsContract now g.rels "RESOURCE" (accountNid acct) (eksNid c.arn)
        _ _ (fs_new_relattrs now epoch) (lastupd_no_fs epoch)
    · exact relsFsContract_refl now g.rels

theorem runIngestAccount_fsContract (g : Graph) (name aid : String) (epoch now : Nat) :
    graphFsContract now g (runIngestAccount g name aid epoch now) := by
  refine ⟨?_, ?_⟩
  · exact nodesFsContract_trans now g.nodes _ _
      (mergeNode_fsContract now g.nodes (accountNid aid) _ _
        (fs_new_account now epoch name) (account_om_no_fs epoch name))
      (mergeNode_fsContract now _ ⟨"AWSPrincipal", "arn", rootArnOf aid⟩ _ _
        (fs_new_principal now epoch) (lastupd_no_fs epoch))
  · exact mergeRel_fsContract now g.rels "RESOURCE" (accountNid aid)
      ⟨"AWSPrincipal", "arn", rootArnOf aid⟩ _ _
      (fs_new_relattrs now epoch) (lastupd_no_fs epoch)

theorem ingestOneBlock_fsContract (stmt : CidrIngestStatement) (vpcId : String)
    (epoch now : Nat) (g : Graph) (blk : CidrBlockEntry) (g' : Graph)
    (h : ingestOneBlock stmt vpcId epoch now g blk = .ok g') :
    graphFsContract now g g' := by
  unfold ingestOneBlock at h
  cases hbg : blockGet blk stmt.block_cidr with
  | str cidr =>
    rw [hbg] at h
    injection h with he
    rw [← he]
    exact ⟨mergeNode_fsContract now g.nodes _ _ _
        (fs_new_block now _ _ _ _ epoch) (block_om_no_fs _ _ _ _ epoch),
      mergeRel_fsContract now g.rels "BLOCK_ASSOCIATION" (vpcNid vpcId) _ _ _
        (fs_new_relattrs now epoch) (lastupd_no_fs epoch)⟩
  | int n => rw [hbg] at h; exact Except.noConfusion h
  | bool b => rw [hbg] at h; exact Except.noConfusion h
  | null => rw [hbg] at h; exact Except.noConfusion h

theorem ingest_fold_fsContract (stmt : CidrIngestStatement) (vpcId : String)
    (epoch now : Nat) (blocks : List CidrBlockEntry) :
    ∀ (g g' : Graph),
      blocks.foldlM (fun gi blk => ingestOneBlock stmt vpcId epoch now gi blk) g = .ok g' →
      graphFsContract now g g' := by
  induction blocks with
  | nil =>
    intro g g' h
    injection h with he
    rw [← he]
    exact graphFsContract_refl now g
  | cons b bs ih =>
    intro g g' h
    rw [List.foldlM_cons] at h
    cases hb : ingestOneBlock stmt vpcId epoch now g b with
    | error m => rw [hb] at h; exact Except.noConfusion h
    | ok g1 =>
      rw [hb] at h
      exact graphFsContract_trans now g g1 g'
        (ingestOneBlock_fsContract stmt vpcId epoch now g b g1 hb) (ih g1 g' h)

theorem run_cidr_ingest_fsContract (g : Graph) (stmt : CidrIngestStatement)
    (vpcId : String) (blocks : List CidrBlockEntry) (epoch now : Nat) (g' : Graph)
    (h : run_cidr_ingest g stmt vpcId blocks epoch now = .ok g') :
    graphFsContract now g g' := by
  unfold run_cidr_ingest at h
  split at h
  · exact ingest_fold_fsContract stmt vpcId epoch now blocks g g' h
  · injection h with he
    rw [← he]
    exact graphFsContract_refl now g

theorem load_cidr_association_set_fsContract (g : Graph) (vpc_id : String)
    (vpc_data : VpcRecord) (block_type : String) (epoch now : Nat) (g' : Graph)
    (h : load_cidr_association_set g vpc_id vpc_data block_type epoch now = .ok g') :
    graphFsContract now g g' := by
  unfold load_cidr_association_set at h
  cases hs : get_cidr_association_statement block_type with
  | error e => rw [hs] at h; exact Except.noConfusion h
  | ok stmt =>
    rw [hs] at h
    exact run_cidr_ingest_fsContract g stmt vpc_id _ epoch now g' h

theorem load_ec2_vpcs_fsContract (data : List VpcRecord) :
    ∀ (g : Graph) (region acct : String) (epoch now : Nat) (g' : Graph) (e : Option String),
      load_ec2_vpcs g data region acct epoch now = (g', e) →
      graphFsContract now g g' := by
  induction data with
  | nil =>
    intro g region acct epoch now g' e h
    injection h with h1 h2
    rw [← h1]
    exact graphFsContract_refl now g
  | cons vpc rest ih =>
    intro g region acct epoch now g' e h
    simp only [load_ec2_vpcs] at h
    have hstep := runIngestVpc_fsContract g vpc region acct epoch now
    cases h4 : load_cidr_association_set (runIngestVpc g vpc region acct epoch now)
        vpc.VpcId vpc "ipv4" epoch now with
    | error e4 =>
      rw [h4] at h
      injection h with h1 h2
      rw [← h1]
      exact hstep
    | ok g2 =>
      simp only [h4] at h
      have h4c := load_cidr_association_set_fsContract _ _ _ _ _ _ _ h4
      cases h6 : load_cidr_association_set g2 vpc.VpcId vpc "ipv6" epoch now with
      | error e6 =>
        simp only [h6] at h
        injection h with h1 h2
        rw [← h1]
        exact graphFsContract_trans now _ _ _ hstep h4c
      | ok g3 =>
        simp only [h6] at h
        have h6c := load_cidr_association_set_fsContract _ _ _ _ _ _ _ h6
        exact graphFsContract_trans now _ _ _
          (graphFsContract_trans now _ _ _ hstep h4c)
          (graphFsContract_trans now _ _ _ h6c (ih g3 region acct epoch now g' e h))

theorem load_eks_clusters_fsContract (cd : List (String × EksCluster)) :
    ∀ (g : Graph) (region acct : String) (epoch now : Nat),
      graphFsContract now g (load_eks_clusters g cd region acct epoch now) := by
  induction cd with
  | nil => intro g region acct epoch now; exact graphFsContract_refl now g
  | cons kv rest ih =>
    intro g region acct epoch now
    exact graphFsContract_trans now _ _ _
      (runIngestEksCluster_fsContract g kv.2 region acct epoch now)
      (ih (runIngestEksCluster g kv.2 region acct epoch now) region acct epoch now)

theorem load_aws_accounts_fsContract (accounts : List (String × String)) :
    ∀ (g : Graph) (epoch now : Nat),
      graphFsContract now g (load_aws_accounts g accounts epoch now) := by
  induction accounts with
  | nil => intro g epoch now; exact graphFsContract_refl now g
  | cons kv rest ih =>
    intro g epoch now
    exact graphFsContract_trans now _ _ _
      (runIngestAccount_fsContract g kv.1 kv.2 epoch now)
      (ih (runIngestAccount g kv.1 kv.2 epoch now) epoch now)

/-! Pagination and ARN parsing lemmas. -/

theorem eksPaginate_go (pages : List EksPage) (acc : List String) :
    pages.foldl (fun clusters page => clusters ++ page.clusters) acc =
      acc ++ (pages.map EksPage.clusters).flatten := by
  induction pages generalizing acc with
  | nil => simp
  | cons p ps ih => simp [ih, List.append_assoc]

theorem pySplit_no_sep (sep : Char) (xs : List Char) (h : sep ∉ xs) :
    pySplit sep xs = [xs] := by
  induction xs with
  | nil => rfl
  | cons c cs ih =>
    have hc : ¬c = sep := fun hh => h (hh ▸ List.mem_cons_self c cs)
    have hs : sep ∉ cs := fun hh => h (List.mem_cons_of_mem c hh)
    unfold pySplit
    rw [if_neg hc, ih hs]

theorem pySplit_append_sep (sep : Char) (xs r : List Char) (h : sep ∉ xs) :
    pySplit sep (xs ++ sep :: r) = xs :: pySplit sep r := by
  induction xs with
  | nil =>
    show pySplit sep (sep :: r) = [] :: pySplit sep r
    simp [pySplit]
  | cons c cs ih =>
    have hc : ¬c = sep := fun hh => h (hh ▸ List.mem_cons_self c cs)
    have hs : sep ∉ cs := fun hh => h (List.mem_cons_of_mem c hh)
    show pySplit sep (c :: (cs ++ sep :: r)) = (c :: cs) :: pySplit sep r
    simp only [pySplit]
    rw [if_neg hc, ih hs]

/-! Claim theorems. -/

/-- C6: `get_eks_clusters` exhausts every page of the paginated
`list_clusters` call: whenever the underlying call produces a page
sequence, the returned list is exactly the concatenation, in page order,
of each page's `clusters` entries. -/
theorem C6_pagination_exhaustive (oracle : String → FetchOutcome (List EksPage))
    (region : String) (pages : List EksPage) (h : oracle region = .ok pages) :
    get_eks_clusters oracle region = .ok ((pages.map EksPage.clusters).flatten) := by
  unfold get_eks_clusters
  rw [h]
  show Except.ok (eksPaginate pages) = _
  rw [show eksPaginate pages = (pages.map EksPage.clusters).flatten from eksPaginate_go pages []]

/-- Witness for C6 at a concrete two-page fetch. -/
theorem C6_pagination_exhaustive_witness :
    get_eks_clusters (fun _ => .ok [⟨["a", "b"]⟩, ⟨["c"]⟩]) "us-east-1" =
      .ok ["a", "b", "c"] := by
  have h := C6_pagination_exhaustive (fun _ => .ok [⟨["a", "b"]⟩, ⟨["c"]⟩]) "us-east-1"
    [⟨["a", "b"]⟩, ⟨["c"]⟩] rfl
  rw [h]
  rfl

/-- C9: parsing the root principal ARN that `load_aws_accounts` constructs
for an account id with `get_account_from_arn` yields the account id back,
for every id not containing a colon. -/
theorem C9_root_arn_roundtrip (account_id : String) (h : ':' ∉ account_id.data) :
    get_account_from_arn (rootArnOf account_id) = .ok account_id := by
  unfold get_account_from_arn rootArnOf
  have hdata : ("arn:aws:iam::" ++ account_id ++ ":root").data =
      ['a', 'r', 'n'] ++ ':' :: (['a', 'w', 's'] ++ ':' :: (['i', 'a', 'm'] ++ ':' ::
        ([] ++ ':' :: (account_id.data ++ ':' :: ['r', 'o', 'o', 't'])))) := by
    rw [String.data_append, String.data_append]
    rw [show ("arn:aws:iam::" : String).data =
      ['a', 'r', 'n', ':', 'a', 'w', 's', ':', 'i', 'a', 'm', ':', ':'] from rfl]
    rw [show (":root" : String).data = [':', 'r', 'o', 'o', 't'] from rfl]
    simp
  rw [hdata,
    pySplit_append_sep ':' ['a', 'r', 'n'] _ (by decide),
    pySplit_append_sep ':' ['a', 'w', 's'] _ (by decide),
    pySplit_append_sep ':' ['i', 'a', 'm'] _ (by decide),
    pySplit_append_sep ':' [] _ (by decide),
    pySplit_append_sep ':' account_id.data _ h,
    pySplit_no_sep ':' ['r', 'o', 'o', 't'] (by decide)]
  show Except.ok (String.mk account_id.data) = Except.ok account_id
  rfl

/-- Witness for C9 at a concrete colon-free account id. -/
theorem C9_root_arn_roundtrip_witness :
    ':' ∉ ("000011112222" : String).data ∧
      get_account_from_arn (rootArnOf "000011112222") = .ok "000011112222" :=
  ⟨by decide, C9_root_arn_roundtrip "000011112222" (by decide)⟩

/-- C10: `process_logging` returns true exactly when the record's
`logging.clusterLogging` field is present and non-empty and at least one
entry lists audit in its types with enabled set; in particular it returns
false when the field is absent or empty. -/
theorem C10_process_logging_iff (c : EksCluster) :
    process_logging c = true ↔
      ∃ entries, (c.logging.getD ⟨none⟩).clusterLogging = some entries ∧
        ∃ e ∈ entries, "audit" ∈ e.types ∧ e.enabled = true := by
  unfold process_logging
  cases hl : (c.logging.getD ⟨none⟩).clusterLogging with
  | none => simp
  | some entries =>
    by_cases he : entries.isEmpty
    · rw [List.isEmpty_iff.mp he]
      simp
    · simp only [he, if_false, Bool.false_eq_true, List.any_eq_true,
        audit_logging_enabled, Bool.and_eq_true, Option.some.injEq]
      constructor
      · rintro ⟨e, hmem, hbool⟩
        exact ⟨entries, rfl, e, hmem, by
          simpa using hbool.1, hbool.2⟩
      · rintro ⟨entries', heq, e, hmem, haudit, hen⟩
        cases heq
        exact ⟨e, hmem, by simpa using haudit, hen⟩

/-- C7: for every node and relationship written by any load function,
`firstseen` is assigned only at creation and never modified afterwards —
across `load_aws_accounts`, `load_eks_clusters` and `load_ec2_vpcs`, an
identity already present keeps its `firstseen` value unchanged, and a newly
created identity carries `firstseen = timestamp()` of the pass; this holds
because every ingest query places `firstseen` exclusively in its
`ON CREATE SET` clause. -/
theorem C7_firstseen_immutable (g : Graph) (accounts : List (String × String))
    (cd : List (String × EksCluster)) (data : List VpcRecord)
    (region acct : String) (epoch now : Nat) :
    graphFsContract now g (load_aws_accounts g accounts epoch now) ∧
    graphFsContract now g (load_eks_clusters g cd region acct epoch now) ∧
    (∀ (g' : Graph) (e : Option String),
      load_ec2_vpcs g data region acct epoch now = (g', e) →
      graphFsContract now g g') :=
  ⟨load_aws_accounts_fsContract accounts g epoch now,
   load_eks_clusters_fsContract cd g region acct epoch now,
   fun g' e h => load_ec2_vpcs_fsContract data g region acct epoch now g' e h⟩

/-- Witness for C7: a concrete account node with firstseen 7 keeps it
across a reload at epoch 20. -/
theorem C7_firstseen_immutable_witness :
    ∃ n', findNode (load_aws_accounts
        { nodes := [{ nid := accountNid "111", attrs := [("firstseen", Val.int 7)] }],
          rels := [] } [("prof", "111")] 20 9).nodes (accountNid "111") = some n' ∧
      getAttr n'.attrs "firstseen" =
        getAttr [("firstseen", Val.int 7)] "firstseen" := by
  exact (C7_firstseen_immutable
      { nodes := [{ nid := accountNid "111", attrs := [("firstseen", Val.int 7)] }],
        rels := [] } [("prof", "111")] [] [] "r" "111" 20 9).1.1.1
    (accountNid "111") { nid := accountNid "111", attrs := [("firstseen", Val.int 7)] }
    (by rfl)

/-! Success lemmas for the CIDR ingest. -/

/-- AWS data shape for the association sets: every ipv4 entry carries a
`CidrBlock` string and every ipv6 entry an `Ipv6CidrBlock` string. -/
def wellFormedCidrSets (v : VpcRecord) : Prop :=
  (∀ b ∈ v.CidrBlockAssociationSet, ∃ s, b.CidrBlock = some s) ∧
  (∀ b ∈ v.Ipv6CidrBlockAssociationSet, ∃ s, b.Ipv6CidrBlock = some s)

theorem ingestOneBlock_ok (stmt : CidrIngestStatement) (vpcId : String) (epoch now : Nat)
    (g : Graph) (blk : CidrBlockEntry) (s : String)
    (hs : blockGet blk stmt.block_cidr = .str s) :
    ∃ g', ingestOneBlock stmt vpcId epoch now g blk = .ok g' := by
  unfold ingestOneBlock
  rw [hs]
  exact ⟨_, rfl⟩

theorem ingest_fold_ok (stmt : CidrIngestStatement) (vpcId : String) (epoch now : Nat)
    (blocks : List CidrBlockEntry)
    (hb : ∀ b ∈ blocks, ∃ s, blockGet b stmt.block_cidr = .str s) :
    ∀ g : Graph, ∃ g',
      blocks.foldlM (fun gi blk => ingestOneBlock stmt vpcId epoch now gi blk) g = .ok g' := by
  induction blocks with
  | nil => intro g; exact ⟨g, rfl⟩
  | cons b bs ih =>
    intro g
    obtain ⟨s, hs⟩ := hb b (List.mem_cons_self _ _)
    obtain ⟨g1, hg1⟩ := ingestOneBlock_ok stmt vpcId epoch now g b s hs
    obtain ⟨g', hg'⟩ := ih (fun b hb' => hb b (List.mem_cons_of_mem _ hb')) g1
    refine ⟨g', ?_⟩
    rw [List.foldlM_cons, hg1]
    exact hg'

theorem run_cidr_ingest_ok (g : Graph) (stmt : CidrIngestStatement) (vpcId : String)
    (blocks : List CidrBlockEntry) (epoch now : Nat)
    (hb : ∀ b ∈ blocks, ∃ s, blockGet b stmt.block_cidr = .str s) :
    ∃ g', run_cidr_ingest g stmt vpcId blocks epoch now = .ok g' := by
  unfold run_cidr_ingest
  split
  · exact ingest_fold_ok stmt vpcId epoch now blocks hb g
  · exact ⟨g, rfl⟩

/-- C8: for every block_type other than ipv4 and ipv6,
`load_cidr_association_set` raises the ValueError coming from
`_get_cidr_association_statement` before anything is sent to the session,
so the graph is untouched on that path; for the two supported values the
statement builder never raises, and with AWS-shaped association data the
load succeeds. -/
theorem C8_block_type_validation (g : Graph) (vpc_id : String) (vpc_data : VpcRecord)
    (block_type : String) (epoch now : Nat) :
    (block_type ≠ "ipv4" → block_type ≠ "ipv6" →
      load_cidr_association_set g vpc_id vpc_data block_type epoch now =
        .error ("Unsupported block type specified - " ++ block_type)) ∧
    ((block_type = "ipv4" ∨ block_type = "ipv6") → wellFormedCidrSets vpc_data →
      ∃ g', load_cidr_association_set g vpc_id vpc_data block_type epoch now = .ok g') := by
  constructor
  · intro h4 h6
    unfold load_cidr_association_set get_cidr_association_statement
    rw [if_neg h6, if_neg h4]
  · rintro (h | h) hwf
    · subst h
      unfold load_cidr_association_set get_cidr_association_statement
      rw [if_neg (by decide), if_pos rfl, if_neg (by decide)]
      refine run_cidr_ingest_ok g _ vpc_id _ epoch now ?_
      intro b hbmem
      obtain ⟨s, hs⟩ := hwf.1 b hbmem
      exact ⟨s, by simp [blockGet, hs, optStr]⟩
    · subst h
      unfold load_cidr_association_set get_cidr_association_statement
      rw [if_pos rfl, if_pos rfl]
      refine run_cidr_ingest_ok g _ vpc_id _ epoch now ?_
      intro b hbmem
      obtain ⟨s, hs⟩ := hwf.2 b hbmem
      exact ⟨s, by simp [blockGet, hs, optStr]⟩

/-- Witness for C8: the unsupported tag `foo` raises; `ipv4` succeeds on a
record with empty association sets. -/
theorem C8_block_type_validation_witness :
    load_cidr_association_set { nodes := [], rels := [] } "vpc-1"
        { VpcId := "vpc-1", InstanceTenancy := none, State := none, IsDefault := none,
          CidrBlock := none, DhcpOptionsId := none, CidrBlockAssociationSet := [],
          Ipv6CidrBlockAssociationSet := [] } "foo" 5 6 =
      .error "Unsupported block type specified - foo" ∧
    ∃ g', load_cidr_association_set { nodes := [], rels := [] } "vpc-1"
        { VpcId := "vpc-1", InstanceTenancy := none, State := none, IsDefault := none,
          CidrBlock := none, DhcpOptionsId := none, CidrBlockAssociationSet := [],
          Ipv6CidrBlockAssociationSet := [] } "ipv4" 5 6 = .ok g' := by
  constructor
  · exact (C8_block_type_validation { nodes := [], rels := [] } "vpc-1" _ "foo" 5 6).1
      (by decide) (by decide)
  · exact (C8_block_type_validation { nodes := [], rels := [] } "vpc-1" _ "ipv4" 5 6).2
      (Or.inl rfl)
      ⟨fun b hb => absurd hb (List.not_mem_nil b), fun b hb => absurd hb (List.not_mem_nil b)⟩

/-! Orchestration lemmas: event traces of the region loops. -/

/-- The per-region trace prefix of a completed pass. -/
def regionTrace (regions : List String) : List SyncEvent :=
  regions.flatMap (fun rg => [.fetched rg, .merged rg])

theorem syncVpcGo_spec (oracle : String → FetchOutcome (List VpcRecord))
    (acct : String) (epoch now : Nat) (regions : List String) :
    ∀ (g : Graph) (evs : List SyncEvent),
      ((syncVpcGo oracle acct epoch now g evs regions).errored = none →
        (syncVpcGo oracle acct epoch now g evs regions).events =
          evs ++ regionTrace regions ++ [.cleanup]) ∧
      (SyncEvent.cleanup ∈ (syncVpcGo oracle acct epoch now g evs regions).events →
        (syncVpcGo oracle acct epoch now g evs regions).errored = none ∨
          SyncEvent.cleanup ∈ evs) := by
  induction regions with
  | nil =>
    intro g evs
    refine ⟨fun _ => ?_, fun _ => Or.inl rfl⟩
    simp [syncVpcGo, regionTrace]
  | cons region rest ih =>
    intro g evs
    simp only [syncVpcGo]
    cases hf : get_ec2_vpcs oracle region with
    | error m =>
      refine ⟨fun hc => ?_, fun hc => Or.inr hc⟩
      cases hc
    | ok data =>
      dsimp only
      cases hl : load_ec2_vpcs g data region acct epoch now with
      | mk g' e =>
        cases e with
        | some m =>
          dsimp only
          refine ⟨fun hc => ?_, fun hc => ?_⟩
          · cases hc
          · simp only [List.mem_append, List.mem_singleton] at hc
            rcases hc with hc | hc
            · exact Or.inr hc
            · cases hc
        | none =>
          dsimp only
          have hrec := ih g' (evs ++ [.fetched region, .merged region])
          refine ⟨fun hc => ?_, fun hc => ?_⟩
          · rw [hrec.1 hc]
            simp [regionTrace, List.append_assoc]
          · rcases hrec.2 hc with hok | hmem
            · exact Or.inl hok
            · simp only [List.mem_append, List.mem_cons, List.mem_singleton,
                List.not_mem_nil, or_false] at hmem
              rcases hmem with hm | hm | hm
              · exact Or.inr hm
              · cases hm
              · cases hm

theorem syncEksGo_spec (oracle : String → FetchOutcome (List EksPage))
    (descOracle : String → String → Except String EksCluster)
    (acct : String) (epoch now : Nat) (regions : List String) :
    ∀ (g : Graph) (evs : List SyncEvent),
      ((syncEksGo oracle descOracle acct epoch now g evs regions).errored = none →
        (syncEksGo oracle descOracle acct epoch now g evs regions).events =
          evs ++ regionTrace regions ++ [.cleanup]) ∧
      (SyncEvent.cleanup ∈ (syncEksGo oracle descOracle acct epoch now g evs regions).events →
        (syncEksGo oracle descOracle acct epoch now g evs regions).errored = none ∨
          SyncEvent.cleanup ∈ evs) := by
  induction regions with
  | nil =>
    intro g evs
    refine ⟨fun _ => ?_, fun _ => Or.inl rfl⟩
    simp [syncEksGo, regionTrace]
  | cons region rest ih =>
    intro g evs
    simp only [syncEksGo]
    cases hf : get_eks_clusters oracle region with
    | error m =>
      refine ⟨fun hc => ?_, fun hc => Or.inr hc⟩
      cases hc
    | ok clusters =>
      dsimp only
      cases hd : buildClusterData descOracle region clusters with
      | error m =>
        refine ⟨fun hc => ?_, fun hc => Or.inr hc⟩
        cases hc
      | ok cluster_data =>
        dsimp only
        have hrec := ih (load_eks_clusters g cluster_data region acct epoch now)
          (evs ++ [.fetched region, .merged region])
        refine ⟨fun hc => ?_, fun hc => ?_⟩
        · rw [hrec.1 hc]
          simp [regionTrace, List.append_assoc]
        · rcases hrec.2 hc with hok | hmem
          · exact Or.inl hok
          · simp only [List.mem_append, List.mem_cons, List.mem_singleton,
              List.not_mem_nil, or_false] at hmem
            rcases hmem with hm | hm | hm
            · exact Or.inr hm
            · cases hm
            · cases hm

/-- C3: in every sync pass, cleanup is entered only after fetch and merge
have completed successfully for every region in the account's region list
(the completed trace is exactly the per-region fetch/merge pairs in order,
then cleanup); if fetching or merging any region raises an error — which a
capability-unsupported condition never does, being converted to an empty
fetch — the cleanup step of that pass is never reached. -/
theorem C3_cleanup_only_after_all_regions (g : Graph)
    (voracle : String → FetchOutcome (List VpcRecord))
    (eoracle : String → FetchOutcome (List EksPage))
    (doracle : String → String → Except String EksCluster)
    (regions : List String) (acct : String) (epoch now : Nat) :
    ((sync_vpc g voracle regions acct epoch now).errored = none →
      (sync_vpc g voracle regions acct epoch now).events =
        regionTrace regions ++ [.cleanup]) ∧
    ((sync_vpc g voracle regions acct epoch now).errored ≠ none →
      SyncEvent.cleanup ∉ (sync_vpc g voracle regions acct epoch now).events) ∧
    ((sync_eks g eoracle doracle regions acct epoch now).errored = none →
      (sync_eks g eoracle doracle regions acct epoch now).events =
        regionTrace regions ++ [.cleanup]) ∧
    ((sync_eks g eoracle doracle regions acct epoch now).errored ≠ none →
      SyncEvent.cleanup ∉ (sync_eks g eoracle doracle regions acct epoch now).events) := by
  have hv := syncVpcGo_spec voracle acct epoch now regions g []
  have he := syncEksGo_spec eoracle doracle acct epoch now regions g []
  refine ⟨fun h => ?_, fun h hc => ?_, fun h => ?_, fun h hc => ?_⟩
  · rw [show (sync_vpc g voracle regions acct epoch now) =
      syncVpcGo voracle acct epoch now g [] regions from rfl, hv.1 h]
    rfl
  · rcases hv.2 hc with hok | hmem
    · exact h hok
    · cases hmem
  · rw [show (sync_eks g eoracle doracle regions acct epoch now) =
      syncEksGo eoracle doracle acct epoch now g [] regions from rfl, he.1 h]
    rfl
  · rcases he.2 hc with hok | hmem
    · exact h hok
    · cases hmem

theorem syncVpcGo_unsupported (oracle : String → FetchOutcome (List VpcRecord))
    (acct : String) (epoch now : Nat) (regions : List String)
    (h : ∀ rg ∈ regions, oracle rg = .unsupported) :
    ∀ (g : Graph) (evs : List SyncEvent),
      syncVpcGo oracle acct epoch now g evs regions =
        { events := evs ++ regionTrace regions ++ [.cleanup],
          graph := cleanup_ec2_vpcs g epoch, errored := none } := by
  induction regions with
  | nil => intro g evs; simp [syncVpcGo, regionTrace]
  | cons region rest ih =>
    intro g evs
    have hfetch : get_ec2_vpcs oracle region = .ok [] := by
      unfold get_ec2_vpcs
      rw [h region (List.mem_cons_self _ _)]
      rfl
    simp only [syncVpcGo, hfetch]
    rw [show load_ec2_vpcs g [] region acct epoch now = (g, none) from rfl]
    dsimp only
    rw [ih (fun rg hrg => h rg (List.mem_cons_of_mem _ hrg)) g
      (evs ++ [SyncEvent.fetched region, SyncEvent.merged region])]
    simp [regionTrace, List.append_assoc]

theorem syncEksGo_unsupported (oracle : String → FetchOutcome (List EksPage))
    (descOracle : String → String → Except String EksCluster)
    (acct : String) (epoch now : Nat) (regions : List String)
    (h : ∀ rg ∈ regions, oracle rg = .unsupported) :
    ∀ (g : Graph) (evs : List SyncEvent),
      syncEksGo oracle descOracle acct epoch now g evs regions =
        { events := evs ++ regionTrace regions ++ [.cleanup],
          graph := cleanup_eks g epoch, errored := none } := by
  induction regions with
  | nil => intro g evs; simp [syncEksGo, regionTrace]
  | cons region rest ih =>
    intro g evs
    have hfetch : get_eks_clusters oracle region = .ok [] := by
      unfold get_eks_clusters
      rw [h region (List.mem_cons_self _ _)]
      rfl
    simp only [syncEksGo, hfetch]
    rw [show buildClusterData descOracle region [] = .ok [] from rfl]
    dsimp only
    rw [show load_eks_clusters g [] region acct epoch now = g from rfl]
    rw [ih (fun rg hrg => h rg (List.mem_cons_of_mem _ hrg)) g
      (evs ++ [SyncEvent.fetched region, SyncEvent.merged region])]
    simp [regionTrace, List.append_assoc]

/-- C4: a region where the provider does not offer the resource kind (a
capability-unsupported condition during fetch) makes the fetch functions
return an empty record list instead of raising, and a pass over such
regions proceeds through merge and on to cleanup. -/
theorem C4_unsupported_regions_empty_fetch (g : Graph)
    (voracle : String → FetchOutcome (List VpcRecord))
    (eoracle : String → FetchOutcome (List EksPage))
    (doracle : String → String → Except String EksCluster)
    (regions : List String) (r0 acct : String) (epoch now : Nat)
    (hv0 : voracle r0 = .unsupported) (he0 : eoracle r0 = .unsupported)
    (hv : ∀ rg ∈ regions, voracle rg = .unsupported)
    (he : ∀ rg ∈ regions, eoracle rg = .unsupported) :
    get_ec2_vpcs voracle r0 = .ok [] ∧
    get_eks_clusters eoracle r0 = .ok [] ∧
    (sync_vpc g voracle regions acct epoch now).errored = none ∧
    SyncEvent.cleanup ∈ (sync_vpc g voracle regions acct epoch now).events ∧
    (sync_eks g eoracle doracle regions acct epoch now).errored = none ∧
    SyncEvent.cleanup ∈ (sync_eks g eoracle doracle regions acct epoch now).events := by
  have hvs := syncVpcGo_unsupported voracle acct epoch now regions hv g []
  have hes := syncEksGo_unsupported eoracle doracle acct epoch now regions he g []
  refine ⟨?_, ?_, ?_, ?_, ?_, ?_⟩
  · unfold get_ec2_vpcs
    rw [hv0]
    rfl
  · unfold get_eks_clusters
    rw [he0]
    rfl
  · rw [show (sync_vpc g voracle regions acct epoch now) =
      syncVpcGo voracle acct epoch now g [] regions from rfl, hvs]
  · rw [show (sync_vpc g voracle regions acct epoch now) =
      syncVpcGo voracle acct epoch now g [] regions from rfl, hvs]
    simp
  · rw [show (sync_eks g eoracle doracle regions acct epoch now) =
      syncEksGo eoracle doracle acct epoch now g [] regions from rfl, hes]
  · rw [show (sync_eks g eoracle doracle regions acct epoch now) =
      syncEksGo eoracle doracle acct epoch now g [] regions from rfl, hes]
    simp

/-- Witness for C4: two concrete regions, both unsupported for both kinds. -/
theorem C4_unsupported_regions_empty_fetch_witness :
    get_ec2_vpcs (fun _ => .unsupported) "r1" = .ok [] ∧
    get_eks_clusters (fun _ => .unsupported) "r1" = .ok [] ∧
    (sync_vpc { nodes := [], rels := [] } (fun _ => .unsupported) ["r1", "r2"]
      "acct" 20 9).errored = none ∧
    SyncEvent.cleanup ∈ (sync_vpc { nodes := [], rels := [] } (fun _ => .unsupported)
      ["r1", "r2"] "acct" 20 9).events ∧
    (sync_eks { nodes := [], rels := [] } (fun _ => .unsupported)
      (fun _ _ => .error "x") ["r1", "r2"] "acct" 20 9).errored = none ∧
    SyncEvent.cleanup ∈ (sync_eks { nodes := [], rels := [] } (fun _ => .unsupported)
      (fun _ _ => .error "x") ["r1", "r2"] "acct" 20 9).events :=
  C4_unsupported_regions_empty_fetch { nodes := [], rels := [] }
    (fun _ => .unsupported) (fun _ => .unsupported) (fun _ _ => .error "x")
    ["r1", "r2"] "r1" "acct" 20 9 rfl rfl (fun _ _ => rfl) (fun _ _ => rfl)

/-- Witness for C3: a concrete completed pass over two regions whose trace
ends in cleanup, via the theorem's first and third components. -/
theorem C3_cleanup_only_after_all_regions_witness :
    (sync_vpc { nodes := [], rels := [] } (fun _ => .unsupported) ["r1", "r2"]
        "acct" 20 9).events =
      regionTrace ["r1", "r2"] ++ [.cleanup] ∧
    (sync_eks { nodes := [], rels := [] } (fun _ => .unsupported)
        (fun _ _ => .error "x") ["r1", "r2"] "acct" 20 9).events =
      regionTrace ["r1", "r2"] ++ [.cleanup] := by
  have h := C3_cleanup_only_after_all_regions { nodes := [], rels := [] }
    (fun _ => .unsupported) (fun _ => .unsupported) (fun _ _ => .error "x")
    ["r1", "r2"] "acct" 20 9
  exact ⟨h.1 (by rfl), h.2.2.1 (by rfl)⟩

/-! Membership lemmas: what a merge can add to the graph. -/

theorem mem_mergeNode (ns : List Node) (i : NodeId) (oc om : List (String × Val))
    (x : Node) (hx : x ∈ mergeNode ns i oc om) : x ∈ ns ∨ x.nid = i := by
  unfold mergeNode at hx
  by_cases h : ns.any (fun n => n.nid = i) = true
  · rw [if_pos h] at hx
    obtain ⟨n, hn, hupd⟩ := List.mem_map.mp hx
    by_cases hni : n.nid = i
    · right
      rw [← hupd, if_pos hni]
      exact hni
    · left
      rw [← hupd, if_neg hni]
      exact hn
  · rw [if_neg h] at hx
    rcases List.mem_append.mp hx with hmem | hmem
    · exact Or.inl hmem
    · right
      rw [List.mem_singleton.mp hmem]

theorem mem_mergeRel (rs : List Rel) (t : String) (src dst : NodeId)
    (oc om : List (String × Val)) (x : Rel) (hx : x ∈ mergeRel rs t src dst oc om) :
    x ∈ rs ∨ (x.relType = t ∧ x.src = src ∧ x.dst = dst) := by
  unfold mergeRel at hx
  by_cases h : rs.any (fun r => r.relType = t ∧ r.src = src ∧ r.dst = dst) = true
  · rw [if_pos h] at hx
    obtain ⟨r, hr, hupd⟩ := List.mem_map.mp hx
    by_cases hk : r.relType = t ∧ r.src = src ∧ r.dst = dst
    · right
      rw [← hupd, if_pos hk]
      exact hk
    · left
      rw [← hupd, if_neg hk]
      exact hr
  · rw [if_neg h] at hx
    rcases List.mem_append.mp hx with hmem | hmem
    · exact Or.inl hmem
    · right
      rw [List.mem_singleton.mp hmem]
      exact ⟨rfl, rfl, rfl⟩

/-- What one UNWIND iteration can add: a node under the statement's block
label keyed `vpcId + "|" + cidr`, and a `BLOCK_ASSOCIATION` relationship
from the parent vpc to such a node. -/
theorem ingestOneBlock_new (stmt : CidrIngestStatement) (vpcId : String)
    (epoch now : Nat) (g : Graph) (blk : CidrBlockEntry) (g' : Graph)
    (h : ingestOneBlock stmt vpcId epoch now g blk = .ok g') :
    (∀ n ∈ g'.nodes, n ∈ g.nodes ∨
      (n.nid.label = stmt.block_label ∧ n.nid.keyProp = "id" ∧
        ∃ c, n.nid.keyVal = vpcId ++ "|" ++ c)) ∧
    (∀ r ∈ g'.rels, r ∈ g.rels ∨
      (r.relType = "BLOCK_ASSOCIATION" ∧ r.src = vpcNid vpcId ∧
        ∃ c, r.dst.keyVal = vpcId ++ "|" ++ c)) := by
  unfold ingestOneBlock at h
  cases hbg : blockGet blk stmt.block_cidr with
  | str cidr =>
    rw [hbg] at h
    injection h with he
    constructor
    · intro n hn
      rw [← he] at hn
      rcases mem_mergeNode _ _ _ _ n hn with hmem | hkey
      · exact Or.inl hmem
      · right
        rw [hkey]
        exact ⟨rfl, rfl, cidr, rfl⟩
    · intro r hr
      rw [← he] at hr
      rcases mem_mergeRel _ _ _ _ _ _ r hr with hmem | hkey
      · exact Or.inl hmem
      · right
        refine ⟨hkey.1, hkey.2.1, cidr, ?_⟩
        rw [hkey.2.2]
  | int n => rw [hbg] at h; exact Except.noConfusion h
  | bool b => rw [hbg] at h; exact Except.noConfusion h
  | null => rw [hbg] at h; exact Except.noConfusion h

theorem ingest_fold_new (stmt : CidrIngestStatement) (vpcId : String)
    (epoch now : Nat) (blocks : List CidrBlockEntry) :
    ∀ (g g' : Graph),
      blocks.foldlM (fun gi blk => ingestOneBlock stmt vpcId epoch now gi blk) g = .ok g' →
      (∀ n ∈ g'.nodes, n ∈ g.nodes ∨
        (n.nid.label = stmt.block_label ∧ n.nid.keyProp = "id" ∧
          ∃ c, n.nid.keyVal = vpcId ++ "|" ++ c)) ∧
      (∀ r ∈ g'.rels, r ∈ g.rels ∨
        (r.relType = "BLOCK_ASSOCIATION" ∧ r.src = vpcNid vpcId ∧
          ∃ c, r.dst.keyVal = vpcId ++ "|" ++ c)) := by
  induction blocks with
  | nil =>
    intro g g' h
    injection h with he
    rw [← he]
    exact ⟨fun n hn => Or.inl hn, fun r hr => Or.inl hr⟩
  | cons b bs ih =>
    intro g g' h
    rw [List.foldlM_cons] at h
    cases hb : ingestOneBlock stmt vpcId epoch now g b with
    | error m => rw [hb] at h; exact Except.noConfusion h
    | ok g1 =>
      rw [hb] at h
      have hstep := ingestOneBlock_new stmt vpcId epoch now g b g1 hb
      have hrest := ih g1 g' h
      constructor
      · intro n hn
        rcases hrest.1 n hn with hmem | hnew
        · exact hstep.1 n hmem
        · exact Or.inr hnew
      · intro r hr
        rcases hrest.2 r hr with hmem | hnew
        · exact hstep.2 r hmem
        · exact Or.inr hnew

/-- C5: the parent `AWSVpc` node's upsert completes before any of its CIDR
block records are written — `load_ec2_vpcs` runs `ingest_vpc` first, after
which the parent node exists; and the CIDR ingest statement matches the
existing `AWSVpc` node by VpcId (writing nothing at all when it is absent),
keying every written block node by the parent's id and attaching every
written relationship to the parent. -/
theorem C5_parent_before_children (g : Graph) (vpc : VpcRecord)
    (region acct : String) (epoch now : Nat) :
    (findNode (runIngestVpc g vpc region acct epoch now).nodes
      (vpcNid vpc.VpcId)).isSome = true ∧
    (∀ (stmt : CidrIngestStatement) (blocks : List CidrBlockEntry) (g0 g0' : Graph),
      run_cidr_ingest g0 stmt vpc.VpcId blocks epoch now = .ok g0' →
      (findNode g0.nodes (vpcNid vpc.VpcId) = none → g0' = g0) ∧
      (∀ n ∈ g0'.nodes, n ∈ g0.nodes ∨
        (n.nid.label = stmt.block_label ∧ n.nid.keyProp = "id" ∧
          ∃ c, n.nid.keyVal = vpc.VpcId ++ "|" ++ c)) ∧
      (∀ r ∈ g0'.rels, r ∈ g0.rels ∨
        (r.relType = "BLOCK_ASSOCIATION" ∧ r.src = vpcNid vpc.VpcId ∧
          ∃ c, r.dst.keyVal = vpc.VpcId ++ "|" ++ c))) := by
  constructor
  · rw [show (runIngestVpc g vpc region acct epoch now).nodes =
        mergeNode g.nodes (vpcNid vpc.VpcId) (vpcOnCreate now vpc.VpcId)
          (vpcAlways vpc region epoch) from rfl,
      findNode_mergeNode_self]
    rfl
  · intro stmt blocks g0 g0' hrun
    refine ⟨?_, ?_, ?_⟩
    · intro hnone
      unfold run_cidr_ingest at hrun
      by_cases hA : g0.nodes.any (fun n => n.nid = vpcNid vpc.VpcId) = true
      · obtain ⟨n, hn⟩ := findNode_isSome_of_any g0.nodes (vpcNid vpc.VpcId) hA
        rw [hnone] at hn
        cases hn
      · rw [if_neg hA] at hrun
        injection hrun with he
        exact he.symm
    · intro n hn
      unfold run_cidr_ingest at hrun
      by_cases hA : g0.nodes.any (fun n => n.nid = vpcNid vpc.VpcId) = true
      · rw [if_pos hA] at hrun
        exact (ingest_fold_new stmt vpc.VpcId epoch now blocks g0 g0' hrun).1 n hn
      · rw [if_neg hA] at hrun
        injection hrun with he
        rw [← he] at hn
        exact Or.inl hn
    · intro r hr
      unfold run_cidr_ingest at hrun
      by_cases hA : g0.nodes.any (fun n => n.nid = vpcNid vpc.VpcId) = true
      · rw [if_pos hA] at hrun
        exact (ingest_fold_new stmt vpc.VpcId epoch now blocks g0 g0' hrun).2 r hr
      · rw [if_neg hA] at hrun
        injection hrun with he
        rw [← he] at hr
        exact Or.inl hr

/-- Witness for C5: a concrete VPC record; after its ingest the parent node
exists, and a CIDR run against a graph without the parent writes nothing. -/
theorem C5_parent_before_children_witness :
    (findNode (runIngestVpc { nodes := [], rels := [] }
        { VpcId := "vpc-1", InstanceTenancy := none, State := none, IsDefault := none,
          CidrBlock := none, DhcpOptionsId := none, CidrBlockAssociationSet := [],
          Ipv6CidrBlockAssociationSet := [] } "r" "a" 2 1).nodes
      (vpcNid "vpc-1")).isSome = true ∧
    ({ nodes := [], rels := [] } : Graph) = { nodes := [], rels := [] } := by
  have h := C5_parent_before_children { nodes := [], rels := [] }
    { VpcId := "vpc-1", InstanceTenancy := none, State := none, IsDefault := none,
      CidrBlock := none, DhcpOptionsId := none, CidrBlockAssociationSet := [],
      Ipv6CidrBlockAssociationSet := [] } "r" "a" 2 1
  exact ⟨h.1, (h.2 ⟨"AWSCidrBlock:AWSIpv4CidrBlock", "CidrBlock", "CidrBlockState"⟩ []
    { nodes := [], rels := [] } { nodes := [], rels := [] } rfl).1 rfl⟩

/-! Preservation lemmas: the CIDR ingest never touches `AWSVpc` nodes. -/

theorem stmt_block_label_ne (bt : String) (stmt : CidrIngestStatement)
    (h : get_cidr_association_statement bt = .ok stmt) :
    stmt.block_label ≠ "AWSVpc" := by
  unfold get_cidr_association_statement at h
  by_cases h6 : bt = "ipv6"
  · rw [if_pos h6] at h
    injection h with he
    rw [← he]
    decide
  · rw [if_neg h6] at h
    by_cases h4 : bt = "ipv4"
    · rw [if_pos h4] at h
      injection h with he
      rw [← he]
      decide
    · rw [if_neg h4] at h
      exact Except.noConfusion h

theorem ingest_fold_preserve (stmt : CidrIngestStatement) (vpcId : String)
    (epoch now : Nat) (blocks : List CidrBlockEntry) (i : NodeId)
    (hl : i.label ≠ stmt.block_label) :
    ∀ (g g' : Graph),
      blocks.foldlM (fun gi blk => ingestOneBlock stmt vpcId epoch now gi blk) g = .ok g' →
      findNode g'.nodes i = findNode g.nodes i ∧
        countNid g'.nodes i = countNid g.nodes i := by
  induction blocks with
  | nil =>
    intro g g' h
    injection h with he
    rw [← he]
    exact ⟨rfl, rfl⟩
  | cons b bs ih =>
    intro g g' h
    rw [List.foldlM_cons] at h
    cases hb : ingestOneBlock stmt vpcId epoch now g b with
    | error m => rw [hb] at h; exact Except.noConfusion h
    | ok g1 =>
      rw [hb] at h
      unfold ingestOneBlock at hb
      cases hbg : blockGet b stmt.block_cidr with
      | str cidr =>
        rw [hbg] at hb
        injection hb with he
        have hne : i ≠ ⟨stmt.block_label, "id", vpcId ++ "|" ++ cidr⟩ := by
          intro hh
          exact hl (congrArg NodeId.label hh)
        have hrest := ih g1 g' h
        constructor
        · rw [hrest.1, ← he]
          exact findNode_mergeNode_ne g.nodes _ i _ _ hne
        · rw [hrest.2, ← he]
          exact countNid_mergeNode_ne g.nodes _ i _ _ hne
      | int n => rw [hbg] at hb; exact Except.noConfusion hb
      | bool bb => rw [hbg] at hb; exact Except.noConfusion hb
      | null => rw [hbg] at hb; exact Except.noConfusion hb

theorem run_cidr_ingest_preserve (g : Graph) (stmt : CidrIngestStatement)
    (vpcId : String) (blocks : List CidrBlockEntry) (epoch now : Nat) (g' : Graph)
    (i : NodeId) (h : run_cidr_ingest g stmt vpcId blocks epoch now = .ok g')
    (hl : i.label ≠ stmt.block_label) :
    findNode g'.nodes i = findNode g.nodes i ∧
      countNid g'.nodes i = countNid g.nodes i := by
  unfold run_cidr_ingest at h
  by_cases hA : g.nodes.any (fun n => n.nid = vpcNid vpcId) = true
  · rw [if_pos hA] at h
    exact ingest_fold_preserve stmt vpcId epoch now blocks i hl g g' h
  · rw [if_neg hA] at h
    injection h with he
    rw [← he]
    exact ⟨rfl, rfl⟩

theorem load_cidr_preserve (g : Graph) (vpc_id : String) (vpc_data : VpcRecord)
    (bt : String) (epoch now : Nat) (g' : Graph) (i : NodeId)
    (h : load_cidr_association_set g vpc_id vpc_data bt epoch now = .ok g')
    (hL : i.label = "AWSVpc") :
    findNode g'.nodes i = findNode g.nodes i ∧
      countNid g'.nodes i = countNid g.nodes i := by
  unfold load_cidr_association_set at h
  cases hs : get_cidr_association_statement bt with
  | error e => rw [hs] at h; exact Except.noConfusion h
  | ok stmt =>
    rw [hs] at h
    refine run_cidr_ingest_preserve g stmt vpc_id _ epoch now g' i h ?_
    rw [hL]
    exact fun hh => stmt_block_label_ne bt stmt hs hh.symm

/-! Attribute extraction over the concrete `SET` lists. -/

theorem vpcAlways_getAttrs (a : Attrs) (vpc : VpcRecord) (region : String) (epoch : Nat) :
    getAttr (setAttrs a (vpcAlways vpc region epoch)) "lastupdated" = .int epoch ∧
    getAttr (setAttrs a (vpcAlways vpc region epoch)) "instance_tenancy" =
      optStr vpc.InstanceTenancy ∧
    getAttr (setAttrs a (vpcAlways vpc region epoch)) "state" = optStr vpc.State ∧
    getAttr (setAttrs a (vpcAlways vpc region epoch)) "is_default" = optBool vpc.IsDefault ∧
    getAttr (setAttrs a (vpcAlways vpc region epoch)) "primary_cidr_block" =
      optStr vpc.CidrBlock ∧
    getAttr (setAttrs a (vpcAlways vpc region epoch)) "dhcp_options_id" =
      optStr vpc.DhcpOptionsId ∧
    getAttr (setAttrs a (vpcAlways vpc region epoch)) "region" = .str region ∧
    getAttr (setAttrs a (vpcAlways vpc region epoch)) "vpcid" = getAttr a "vpcid" ∧
    getAttr (setAttrs a (vpcAlways vpc region epoch)) "firstseen" = getAttr a "firstseen" := by
  refine ⟨?_, ?_, ?_, ?_, ?_, ?_, ?_, ?_, ?_⟩
  · simp only [vpcAlways, setAttrs, List.foldl]
    rw [getAttr_setAttr_self]
  · simp only [vpcAlways, setAttrs, List.foldl]
    rw [getAttr_setAttr_ne _ _ _ _ (by decide), getAttr_setAttr_ne _ _ _ _ (by decide),
      getAttr_setAttr_ne _ _ _ _ (by decide), getAttr_setAttr_ne _ _ _ _ (by decide),
      getAttr_setAttr_ne _ _ _ _ (by decide), getAttr_setAttr_ne _ _ _ _ (by decide),
      getAttr_setAttr_self]
  · simp only [vpcAlways, setAttrs, List.foldl]
    rw [getAttr_setAttr_ne _ _ _ _ (by decide), getAttr_setAttr_ne _ _ _ _ (by decide),
      getAttr_setAttr_ne _ _ _ _ (by decide), getAttr_setAttr_ne _ _ _ _ (by decide),
      getAttr_setAttr_ne _ _ _ _ (by decide), getAttr_setAttr_self]
  · simp only [vpcAlways, setAttrs, List.foldl]
    rw [getAttr_setAttr_ne _ _ _ _ (by decide), getAttr_setAttr_ne _ _ _ _ (by decide),
      getAttr_setAttr_ne _ _ _ _ (by decide), getAttr_setAttr_ne _ _ _ _ (by decide),
      getAttr_setAttr_self]
  · simp only [vpcAlways, setAttrs, List.foldl]
    rw [getAttr_setAttr_ne _ _ _ _ (by decide), getAttr_setAttr_ne _ _ _ _ (by decide),
      getAttr_setAttr_ne _ _ _ _ (by decide), getAttr_setAttr_self]
  · simp only [vpcAlways, setAttrs, List.foldl]
    rw [getAttr_setAttr_ne _ _ _ _ (by decide), getAttr_setAttr_ne _ _ _ _ (by decide),
      getAttr_setAttr_self]
  · simp only [vpcAlways, setAttrs, List.foldl]
    rw [getAttr_setAttr_ne _ _ _ _ (by decide), getAttr_setAttr_self]
  · exact getAttr_setAttrs_not_mem _ _ _ (by intro kv hkv; fin_cases hkv <;> simp)
  · exact getAttr_setAttrs_not_mem _ _ _ (vpcAlways_no_fs vpc region epoch)

theorem eksAlways_getAttrs (a : Attrs) (c : EksCluster) (epoch : Nat) :
    getAttr (setAttrs a (eksAlways c epoch)) "lastupdated" = .int epoch ∧
    getAttr (setAttrs a (eksAlways c epoch)) "endpoint" = optStr c.endpoint ∧
    getAttr (setAttrs a (eksAlways c epoch)) "endpoint_public_access" =
      optBool ((c.resourcesVpcConfig.getD ⟨none⟩).endpointPublicAccess) ∧
    getAttr (setAttrs a (eksAlways c epoch)) "rolearn" = optStr c.roleArn ∧
    getAttr (setAttrs a (eksAlways c epoch)) "version" = optStr c.version ∧
    getAttr (setAttrs a (eksAlways c epoch)) "platform_version" =
      optStr c.platformVersion ∧
    getAttr (setAttrs a (eksAlways c epoch)) "status" = optStr c.status ∧
    getAttr (setAttrs a (eksAlways c epoch)) "audit_logging" = .bool (process_logging c) ∧
    getAttr (setAttrs a (eksAlways c epoch)) "name" = getAttr a "name" ∧
    getAttr (setAttrs a (eksAlways c epoch)) "region" = getAttr a "region" ∧
    getAttr (setAttrs a (eksAlways c epoch)) "created_at" = getAttr a "created_at" ∧
    getAttr (setAttrs a (eksAlways c epoch)) "arn" = getAttr a "arn" ∧
    getAttr (setAttrs a (eksAlways c epoch)) "firstseen" = getAttr a "firstseen" := by
  refine ⟨?_, ?_, ?_, ?_, ?_, ?_, ?_, ?_, ?_, ?_, ?_, ?_, ?_⟩
  · simp only [eksAlways, setAttrs, List.foldl]
    rw [getAttr_setAttr_ne _ _ _ _ (by decide), getAttr_setAttr_ne _ _ _ _ (by decide),
      getAttr_setAttr_ne _ _ _ _ (by decide), getAttr_setAttr_ne _ _ _ _ (by decide),
      getAttr_setAttr_ne _ _ _ _ (by decide), getAttr_setAttr_ne _ _ _ _ (by decide),
      getAttr_setAttr_ne _ _ _ _ (by decide), getAttr_setAttr_self]
  · simp only [eksAlways, setAttrs, List.foldl]
    rw [getAttr_setAttr_ne _ _ _ _ (by decide), getAttr_setAttr_ne _ _ _ _ (by decide),
      getAttr_setAttr_ne _ _ _ _ (by decide), getAttr_setAttr_ne _ _ _ _ (by decide),
      getAttr_setAttr_ne _ _ _ _ (by decide), getAttr_setAttr_ne _ _ _ _ (by decide),
      getAttr_setAttr_self]
  · simp only [eksAlways, setAttrs, List.foldl]
    rw [getAttr_setAttr_ne _ _ _ _ (by decide), getAttr_setAttr_ne _ _ _ _ (by decide),
      getAttr_setAttr_ne _ _ _ _ (by decide), getAttr_setAttr_ne _ _ _ _ (by decide),
      getAttr_setAttr_ne _ _ _ _ (by decide), getAttr_setAttr_self]
  · simp only [eksAlways, setAttrs, List.foldl]
    rw [getAttr_setAttr_ne _ _ _ _ (by decide), getAttr_setAttr_ne _ _ _ _ (by decide),
      getAttr_setAttr_ne _ _ _ _ (by decide), getAttr_setAttr_ne _ _ _ _ (by decide),
      getAttr_setAttr_self]
  · simp only [eksAlways, setAttrs, List.foldl]
    rw [getAttr_setAttr_ne _ _ _ _ (by decide), getAttr_setAttr_ne _ _ _ _ (by decide),
      getAttr_setAttr_ne _ _ _ _ (by decide), getAttr_setAttr_self]
  · simp only [eksAlways, setAttrs, List.foldl]
    rw [getAttr_setAttr_ne _ _ _ _ (by decide), getAttr_setAttr_ne _ _ _ _ (by decide),
      getAttr_setAttr_self]
  · simp only [eksAlways, setAttrs, List.foldl]
    rw [getAttr_setAttr_ne _ _ _ _ (by decide), getAttr_setAttr_self]
  · simp only [eksAlways, setAttrs, List.foldl]
    rw [getAttr_setAttr_self]
  · exact getAttr_setAttrs_not_mem _ _ _ (by intro kv hkv; fin_cases hkv <;> simp)
  · exact getAttr_setAttrs_not_mem _ _ _ (by intro kv hkv; fin_cases hkv <;> simp)
  · exact getAttr_setAttrs_not_mem _ _ _ (by intro kv hkv; fin_cases hkv <;> simp)
  · exact getAttr_setAttrs_not_mem _ _ _ (by intro kv hkv; fin_cases hkv <;> simp)
  · exact getAttr_setAttrs_not_mem _ _ _ (eksAlways_no_fs c epoch)

theorem any_of_findNode_some (ns : List Node) (i : NodeId) (n : Node)
    (h : findNode ns i = some n) : ns.any (fun x => x.nid = i) = true := by
  unfold findNode at h
  have hm := List.mem_of_find?_eq_some h
  have hp := List.find?_some h
  exact List.any_eq_true.mpr ⟨n, hm, hp⟩

theorem findNode_eq_none_of_count_zero (ns : List Node) (i : NodeId)
    (h : countNid ns i = 0) : findNode ns i = none := by
  unfold countNid at h
  rw [List.countP_eq_zero] at h
  unfold findNode
  rw [List.find?_eq_none]
  exact h

theorem not_any_of_count_zero (ns : List Node) (i : NodeId)
    (h : countNid ns i = 0) : ¬ns.any (fun n => n.nid = i) = true := by
  intro hA
  obtain ⟨n, hn⟩ := findNode_isSome_of_any ns i hA
  rw [findNode_eq_none_of_count_zero ns i h] at hn
  cases hn

/-- Across `load_ec2_vpcs` on a single record, the `AWSVpc` node keyed by
the record's VpcId is exactly what the `ingest_vpc` merge made of it — the
CIDR statements never touch `AWSVpc` nodes. -/
theorem load_ec2_vpcs_single_core (g : Graph) (vpc : VpcRecord) (region acct : String)
    (epoch now : Nat) (g' : Graph) (e : Option String)
    (h : load_ec2_vpcs g [vpc] region acct epoch now = (g', e)) :
    findNode g'.nodes (vpcNid vpc.VpcId) =
      findNode (runIngestVpc g vpc region acct epoch now).nodes (vpcNid vpc.VpcId) ∧
    countNid g'.nodes (vpcNid vpc.VpcId) =
      countNid (runIngestVpc g vpc region acct epoch now).nodes (vpcNid vpc.VpcId) := by
  simp only [load_ec2_vpcs] at h
  cases h4 : load_cidr_association_set (runIngestVpc g vpc region acct epoch now)
      vpc.VpcId vpc "ipv4" epoch now with
  | error e4 =>
    simp only [h4] at h
    injection h with h1 h2
    rw [← h1]
    exact ⟨rfl, rfl⟩
  | ok g2 =>
    simp only [h4] at h
    have hp4 := load_cidr_preserve _ _ _ _ _ _ _ (vpcNid vpc.VpcId) h4 rfl
    cases h6 : load_cidr_association_set g2 vpc.VpcId vpc "ipv6" epoch now with
    | error e6 =>
      simp only [h6] at h
      injection h with h1 h2
      rw [← h1]
      exact hp4
    | ok g3 =>
      simp only [h6] at h
      have hp6 := load_cidr_preserve _ _ _ _ _ _ _ (vpcNid vpc.VpcId) h6 rfl
      injection h with h1 h2
      rw [← h1]
      exact ⟨hp6.1.trans hp4.1, hp6.2.trans hp4.2⟩

theorem load_ec2_vpcs_single_fresh (g : Graph) (vpc : VpcRecord) (region acct : String)
    (epoch now : Nat) (g' : Graph) (e : Option String)
    (h : load_ec2_vpcs g [vpc] region acct epoch now = (g', e))
    (hfresh : countNid g.nodes (vpcNid vpc.VpcId) = 0) :
    countNid g'.nodes (vpcNid vpc.VpcId) = 1 ∧
    findNode g'.nodes (vpcNid vpc.VpcId) = some
      { nid := vpcNid vpc.VpcId,
        attrs := setAttrs (setAttrs [] (vpcOnCreate now vpc.VpcId))
          (vpcAlways vpc region epoch) } := by
  have hcore := load_ec2_vpcs_single_core g vpc region acct epoch now g' e h
  have hnotany := not_any_of_count_zero g.nodes (vpcNid vpc.VpcId) hfresh
  have hnone := findNode_eq_none_of_count_zero g.nodes (vpcNid vpc.VpcId) hfresh
  constructor
  · rw [hcore.2,
      show (runIngestVpc g vpc region acct epoch now).nodes =
        mergeNode g.nodes (vpcNid vpc.VpcId) (vpcOnCreate now vpc.VpcId)
          (vpcAlways vpc region epoch) from rfl,
      countNid_mergeNode_new_self g.nodes (vpcNid vpc.VpcId) _ _ hnotany, hfresh]
  · rw [hcore.1,
      show (runIngestVpc g vpc region acct epoch now).nodes =
        mergeNode g.nodes (vpcNid vpc.VpcId) (vpcOnCreate now vpc.VpcId)
          (vpcAlways vpc region epoch) from rfl,
      findNode_mergeNode_self, hnone]

theorem load_ec2_vpcs_single_existing (g : Graph) (vpc : VpcRecord)
    (region acct : String) (epoch now : Nat) (g' : Graph) (e : Option String) (n : Node)
    (h : load_ec2_vpcs g [vpc] region acct epoch now = (g', e))
    (hV : findNode g.nodes (vpcNid vpc.VpcId) = some n) :
    countNid g'.nodes (vpcNid vpc.VpcId) = countNid g.nodes (vpcNid vpc.VpcId) ∧
    findNode g'.nodes (vpcNid vpc.VpcId) =
      some { n with attrs := setAttrs n.attrs (vpcAlways vpc region epoch) } := by
  have hcore := load_ec2_vpcs_single_core g vpc region acct epoch now g' e h
  have hany := any_of_findNode_some g.nodes (vpcNid vpc.VpcId) n hV
  constructor
  · rw [hcore.2,
      show (runIngestVpc g vpc region acct epoch now).nodes =
        mergeNode g.nodes (vpcNid vpc.VpcId) (vpcOnCreate now vpc.VpcId)
          (vpcAlways vpc region epoch) from rfl,
      countNid_mergeNode_match g.nodes (vpcNid vpc.VpcId) _ _ hany]
  · rw [hcore.1,
      show (runIngestVpc g vpc region acct epoch now).nodes =
        mergeNode g.nodes (vpcNid vpc.VpcId) (vpcOnCreate now vpc.VpcId)
          (vpcAlways vpc region epoch) from rfl,
      findNode_mergeNode_self, hV]

/-- C1: merging the same record twice under epochs E1 < E2 with identical
content leaves exactly one node for the record's identity key, its
firstseen equal to the value set in the first pass (that pass's store
timestamp) and its lastupdated equal to E2 — shown for `load_ec2_vpcs` on
a VPC's VpcId and for `load_eks_clusters` on a cluster's arn. -/
theorem C1_idempotent_remerge (g : Graph) (vpc : VpcRecord) (cname : String)
    (c : EksCluster) (region acct : String) (E1 E2 t1 t2 : Nat) (hlt : E1 < E2) :
    (∀ (g1 g2 : Graph) (e1 e2 : Option String),
      countNid g.nodes (vpcNid vpc.VpcId) = 0 →
      load_ec2_vpcs g [vpc] region acct E1 t1 = (g1, e1) →
      load_ec2_vpcs g1 [vpc] region acct E2 t2 = (g2, e2) →
      countNid g2.nodes (vpcNid vpc.VpcId) = 1 ∧
      ∃ n1 n2,
        findNode g1.nodes (vpcNid vpc.VpcId) = some n1 ∧
        findNode g2.nodes (vpcNid vpc.VpcId) = some n2 ∧
        getAttr n1.attrs "firstseen" = .int t1 ∧
        getAttr n2.attrs "firstseen" = getAttr n1.attrs "firstseen" ∧
        getAttr n2.attrs "lastupdated" = .int E2) ∧
    (countNid g.nodes (eksNid c.arn) = 0 →
      countNid (load_eks_clusters (load_eks_clusters g [(cname, c)] region acct E1 t1)
        [(cname, c)] region acct E2 t2).nodes (eksNid c.arn) = 1 ∧
      ∃ n1 n2,
        findNode (load_eks_clusters g [(cname, c)] region acct E1 t1).nodes
          (eksNid c.arn) = some n1 ∧
        findNode (load_eks_clusters (load_eks_clusters g [(cname, c)] region acct E1 t1)
          [(cname, c)] region acct E2 t2).nodes (eksNid c.arn) = some n2 ∧
        getAttr n1.attrs "firstseen" = .int t1 ∧
        getAttr n2.attrs "firstseen" = getAttr n1.attrs "firstseen" ∧
        getAttr n2.attrs "lastupdated" = .int E2) := by
  constructor
  · intro g1 g2 e1 e2 hfresh h1 h2
    obtain ⟨hc1, hf1⟩ := load_ec2_vpcs_single_fresh g vpc region acct E1 t1 g1 e1 h1 hfresh
    obtain ⟨hc2, hf2⟩ :=
      load_ec2_vpcs_single_existing g1 vpc region acct E2 t2 g2 e2 _ h2 hf1
    refine ⟨by rw [hc2, hc1], _, _, hf1, hf2, ?_, ?_, ?_⟩
    · exact fs_new_vpc t1 vpc.VpcId vpc region E1
    · exact (vpcAlways_getAttrs _ vpc region E2).2.2.2.2.2.2.2.2
    · exact (vpcAlways_getAttrs _ vpc region E2).1
  · intro hfresh
    have hnotany := not_any_of_count_zero g.nodes (eksNid c.arn) hfresh
    have hnone := findNode_eq_none_of_count_zero g.nodes (eksNid c.arn) hfresh
    have h1f : findNode (load_eks_clusters g [(cname, c)] region acct E1 t1).nodes
        (eksNid c.arn) =
        some { nid := eksNid c.arn,
               attrs := setAttrs (setAttrs [] (eksOnCreate c region t1))
                 (eksAlways c E1) } := by
      rw [show (load_eks_clusters g [(cname, c)] region acct E1 t1).nodes =
          mergeNode g.nodes (eksNid c.arn) (eksOnCreate c region t1)
            (eksAlways c E1) from rfl,
        findNode_mergeNode_self, hnone]
    have h1c : countNid (load_eks_clusters g [(cname, c)] region acct E1 t1).nodes
        (eksNid c.arn) = 1 := by
      rw [show (load_eks_clusters g [(cname, c)] region acct E1 t1).nodes =
          mergeNode g.nodes (eksNid c.arn) (eksOnCreate c region t1)
            (eksAlways c E1) from rfl,
        countNid_mergeNode_new_self g.nodes (eksNid c.arn) _ _ hnotany, hfresh]
    have hany1 := any_of_findNode_some _ _ _ h1f
    have h2f : findNode (load_eks_clusters
        (load_eks_clusters g [(cname, c)] region acct E1 t1)
        [(cname, c)] region acct E2 t2).nodes (eksNid c.arn) =
        some { nid := eksNid c.arn,
               attrs := setAttrs (setAttrs (setAttrs [] (eksOnCreate c region t1))
                 (eksAlways c E1)) (eksAlways c E2) } := by
      rw [show (load_eks_clusters (load_eks_clusters g [(cname, c)] region acct E1 t1)
            [(cname, c)] region acct E2 t2).nodes =
          mergeNode (load_eks_clusters g [(cname, c)] region acct E1 t1).nodes
            (eksNid c.arn) (eksOnCreate c region t2) (eksAlways c E2) from rfl,
        findNode_mergeNode_self, h1f]
    have h2c : countNid (load_eks_clusters
        (load_eks_clusters g [(cname, c)] region acct E1 t1)
        [(cname, c)] region acct E2 t2).nodes (eksNid c.arn) = 1 := by
      rw [show (load_eks_clusters (load_eks_clusters g [(cname, c)] region acct E1 t1)
            [(cname, c)] region acct E2 t2).nodes =
          mergeNode (load_eks_clusters g [(cname, c)] region acct E1 t1).nodes
            (eksNid c.arn) (eksOnCreate c region t2) (eksAlways c E2) from rfl,
        countNid_mergeNode_match _ _ _ _ hany1, h1c]
    refine ⟨h2c, _, _, h1f, h2f, ?_, ?_, ?_⟩
    · exact fs_new_eks c region E1 t1
    · exact (eksAlways_getAttrs _ c E2).2.2.2.2.2.2.2.2.2.2.2.2
    · exact (eksAlways_getAttrs _ c E2).1

/-- Witness for C1: a concrete VPC record and EKS cluster each merged at
epoch 1 then epoch 2 into the empty graph leave exactly one node. -/
theorem C1_idempotent_remerge_witness :
    countNid ((load_ec2_vpcs (load_ec2_vpcs { nodes := [], rels := [] }
        [{ VpcId := "vpc-1", InstanceTenancy := none, State := none, IsDefault := none,
           CidrBlock := none, DhcpOptionsId := none, CidrBlockAssociationSet := [],
           Ipv6CidrBlockAssociationSet := [] }] "r" "a" 1 10).1
        [{ VpcId := "vpc-1", InstanceTenancy := none, State := none, IsDefault := none,
           CidrBlock := none, DhcpOptionsId := none, CidrBlockAssociationSet := [],
           Ipv6CidrBlockAssociationSet := [] }] "r" "a" 2 20).1).nodes
      (vpcNid "vpc-1") = 1 ∧
    countNid (load_eks_clusters (load_eks_clusters { nodes := [], rels := [] }
        [("c1", { arn := "arn-1", name := "n", endpoint := none,
                  resourcesVpcConfig := none, roleArn := none, version := none,
                  platformVersion := none, status := none, createdAt := none,
                  logging := none })] "r" "a" 1 10)
        [("c1", { arn := "arn-1", name := "n", endpoint := none,
                  resourcesVpcConfig := none, roleArn := none, version := none,
                  platformVersion := none, status := none, createdAt := none,
                  logging := none })] "r" "a" 2 20).nodes (eksNid "arn-1") = 1 := by
  have h := C1_idempotent_remerge { nodes := [], rels := [] }
    { VpcId := "vpc-1", InstanceTenancy := none, State := none, IsDefault := none,
      CidrBlock := none, DhcpOptionsId := none, CidrBlockAssociationSet := [],
      Ipv6CidrBlockAssociationSet := [] } "c1"
    { arn := "arn-1", name := "n", endpoint := none, resourcesVpcConfig := none,
      roleArn := none, version := none, platformVersion := none, status := none,
      createdAt := none, logging := none } "r" "a" 1 2 10 20 (by decide)
  exact ⟨(h.1 _ _ _ _ (by decide) rfl rfl).1, (h.2 (by decide)).1⟩

/-- Counterexample to C2 as stated: the EKS ingest query puts `name` (with
`arn`, `region`, `created_at`) in `ON CREATE SET`, so re-loading an existing
cluster whose record now carries name `new` leaves the stored name `old` —
a supplied attribute that is not overwritten. -/
theorem C2_counterexample :
    ((findNode (load_eks_clusters
        { nodes := [{ nid := eksNid "arn1", attrs := [("name", Val.str "old")] }],
          rels := [] }
        [("c1", { arn := "arn1", name := "new", endpoint := none,
                  resourcesVpcConfig := none, roleArn := none, version := none,
                  platformVersion := none, status := none, createdAt := none,
                  logging := none })] "r" "acct" 200 50).nodes (eksNid "arn1")).map
      (fun n => getAttr n.attrs "name")) = some (Val.str "old") ∧
    Val.str "old" ≠ Val.str "new" := by
  constructor
  · decide
  · decide

/-- C2 as amended: on an upsert of an existing node by a load function,
firstseen is left untouched and lastupdated is set to the current epoch;
every attribute in the query's `SET` clause is overwritten with the new
value, but attributes the query assigns only in `ON CREATE SET` (for EKS
clusters: arn, name, region, created_at; for VPCs: vpcid) keep their
existing values. -/
theorem C2_amended_upsert_overwrites (g : Graph) (c : EksCluster) (vpc : VpcRecord)
    (cname region acct : String) (epoch now : Nat) (nE nV : Node)
    (hE : findNode g.nodes (eksNid c.arn) = some nE)
    (hV : findNode g.nodes (vpcNid vpc.VpcId) = some nV) :
    (∃ nE', findNode (load_eks_clusters g [(cname, c)] region acct epoch now).nodes
        (eksNid c.arn) = some nE' ∧
      getAttr nE'.attrs "firstseen" = getAttr nE.attrs "firstseen" ∧
      getAttr nE'.attrs "lastupdated" = .int epoch ∧
      getAttr nE'.attrs "endpoint" = optStr c.endpoint ∧
      getAttr nE'.attrs "endpoint_public_access" =
        optBool ((c.resourcesVpcConfig.getD ⟨none⟩).endpointPublicAccess) ∧
      getAttr nE'.attrs "rolearn" = optStr c.roleArn ∧
      getAttr nE'.attrs "version" = optStr c.version ∧
      getAttr nE'.attrs "platform_version" = optStr c.platformVersion ∧
      getAttr nE'.attrs "status" = optStr c.status ∧
      getAttr nE'.attrs "audit_logging" = .bool (process_logging c) ∧
      getAttr nE'.attrs "name" = getAttr nE.attrs "name" ∧
      getAttr nE'.attrs "region" = getAttr nE.attrs "region" ∧
      getAttr nE'.attrs "created_at" = getAttr nE.attrs "created_at" ∧
      getAttr nE'.attrs "arn" = getAttr nE.attrs "arn") ∧
    (∀ (g' : Graph) (e : Option String),
      load_ec2_vpcs g [vpc] region acct epoch now = (g', e) →
      ∃ nV', findNode g'.nodes (vpcNid vpc.VpcId) = some nV' ∧
        getAttr nV'.attrs "firstseen" = getAttr nV.attrs "firstseen" ∧
        getAttr nV'.attrs "lastupdated" = .int epoch ∧
        getAttr nV'.attrs "instance_tenancy" = optStr vpc.InstanceTenancy ∧
        getAttr nV'.attrs "state" = optStr vpc.State ∧
        getAttr nV'.attrs "is_default" = optBool vpc.IsDefault ∧
        getAttr nV'.attrs "primary_cidr_block" = optStr vpc.CidrBlock ∧
        getAttr nV'.attrs "dhcp_options_id" = optStr vpc.DhcpOptionsId ∧
        getAttr nV'.attrs "region" = .str region ∧
        getAttr nV'.attrs "vpcid" = getAttr nV.attrs "vpcid") := by
  constructor
  · have hf : findNode (load_eks_clusters g [(cname, c)] region acct epoch now).nodes
        (eksNid c.arn) =
        some { nE with attrs := setAttrs nE.attrs (eksAlways c epoch) } := by
      rw [show (load_eks_clusters g [(cname, c)] region acct epoch now).nodes =
          mergeNode g.nodes (eksNid c.arn) (eksOnCreate c region now)
            (eksAlways c epoch) from rfl,
        findNode_mergeNode_self, hE]
    have hg := eksAlways_getAttrs nE.attrs c epoch
    exact ⟨_, hf, hg.2.2.2.2.2.2.2.2.2.2.2.2, hg.1, hg.2.1, hg.2.2.1, hg.2.2.2.1,
      hg.2.2.2.2.1, hg.2.2.2.2.2.1, hg.2.2.2.2.2.2.1, hg.2.2.2.2.2.2.2.1,
      hg.2.2.2.2.2.2.2.2.1, hg.2.2.2.2.2.2.2.2.2.1, hg.2.2.2.2.2.2.2.2.2.2.1,
      hg.2.2.2.2.2.2.2.2.2.2.2.1⟩
  · intro g' e h
    obtain ⟨hc, hf⟩ := load_ec2_vpcs_single_existing g vpc region acct epoch now g' e nV h hV
    have hg := vpcAlways_getAttrs nV.attrs vpc region epoch
    exact ⟨_, hf, hg.2.2.2.2.2.2.2.2, hg.1, hg.2.1, hg.2.2.1, hg.2.2.2.1,
      hg.2.2.2.2.1, hg.2.2.2.2.2.1, hg.2.2.2.2.2.2.1, hg.2.2.2.2.2.2.2.1⟩

/-- Witness for C2's amended statement: a concrete existing cluster and
VPC node reloaded at epoch 9. -/
theorem C2_amended_upsert_overwrites_witness :
    (∃ nE', findNode (load_eks_clusters
        { nodes := [{ nid := eksNid "arn1", attrs := [("firstseen", Val.int 3)] },
                    { nid := vpcNid "vpc-1", attrs := [("firstseen", Val.int 4)] }],
          rels := [] }
        [("c1", { arn := "arn1", name := "n", endpoint := none,
                  resourcesVpcConfig := none, roleArn := none, version := none,
                  platformVersion := none, status := none, createdAt := none,
                  logging := none })] "r" "acct" 9 8).nodes (eksNid "arn1") = some nE' ∧
      getAttr nE'.attrs "firstseen" =
        getAttr [("firstseen", Val.int 3)] "firstseen" ∧
      getAttr nE'.attrs "lastupdated" = Val.int 9) ∧
    (∃ nV', findNode ((load_ec2_vpcs
        { nodes := [{ nid := eksNid "arn1", attrs := [("firstseen", Val.int 3)] },
                    { nid := vpcNid "vpc-1", attrs := [("firstseen", Val.int 4)] }],
          rels := [] }
        [{ VpcId := "vpc-1", InstanceTenancy := none, State := none, IsDefault := none,
           CidrBlock := none, DhcpOptionsId := none, CidrBlockAssociationSet := [],
           Ipv6CidrBlockAssociationSet := [] }] "r" "acct" 9 8).1).nodes
        (vpcNid "vpc-1") = some nV' ∧
      getAttr nV'.attrs "lastupdated" = Val.int 9) := by
  have h := C2_amended_upsert_overwrites
    { nodes := [{ nid := eksNid "arn1", attrs := [("firstseen", Val.int 3)] },
                { nid := vpcNid "vpc-1", attrs := [("firstseen", Val.int 4)] }],
      rels := [] }
    { arn := "arn1", name := "n", endpoint := none, resourcesVpcConfig := none,
      roleArn := none, version := none, platformVersion := none, status := none,
      createdAt := none, logging := none }
    { VpcId := "vpc-1", InstanceTenancy := none, State := none, IsDefault := none,
      CidrBlock := none, DhcpOptionsId := none, CidrBlockAssociationSet := [],
      Ipv6CidrBlockAssociationSet := [] }
    "c1" "r" "acct" 9 8
    { nid := eksNid "arn1", attrs := [("firstseen", Val.int 3)] }
    { nid := vpcNid "vpc-1", attrs := [("firstseen", Val.int 4)] }
    (by decide) (by decide)
  constructor
  · obtain ⟨nE', hf, hfs, hlu, _⟩ := h.1
    exact ⟨nE', hf, hfs, hlu⟩
  · obtain ⟨nV', hf, hfs, hlu, _⟩ := h.2 _ _ rfl
    exact ⟨nV', hf, hlu⟩

end Cartography
